import Mathlib

/-
Verification of the itemal item-analysis program (itemal.py) against its
natural-language specification.  Each numbered claim C1 .. C10 is settled by a
theorem over a shallow embedding of the Python source.  Embedded definitions
keep the names of the Python entities they translate; line numbers in doc
comments refer to itemal.py.
-/

namespace Itemal

/-! ## SparseStorage (itemal.py lines 90-182)

The Python class stores a rank-R sparse array as nested Python lists.  We model
the nested-list backing store as a type `Store r` (rank-0 cells are numbers,
rank r+1 stores are lists of rank-r stores).  Values are modelled as rationals;
the program only ever stores ints and floats obtained from exact arithmetic on
counts at the points the claims touch.  Methods that raise IndexError on a
rank mismatch are modelled with Except. -/

def Store : Nat → Type
  | 0 => ℚ
  | n + 1 => List (Store n)

instance storeDecEq : (r : Nat) → DecidableEq (Store r)
  | 0 => (inferInstance : DecidableEq ℚ)
  | r + 1 =>
    haveI := storeDecEq r
    (inferInstance : DecidableEq (List (Store r)))

instance storeInhabited : (r : Nat) → Inhabited (Store r)
  | 0 => ⟨(0 : ℚ)⟩
  | _ + 1 => ⟨([] : List (Store _))⟩

/-- The initial `_storage = []` of a freshly constructed SparseStorage (rank at
least 1); the rank-0 value is a junk cell that the guarded operations never
reach. -/
def emptyStore : (r : Nat) → Store r
  | 0 => (0 : ℚ)
  | _ + 1 => ([] : List (Store _))

/-- Walk the nested lists along `key`; `none` models the IndexError that the
Python `valueAtIndex` catches (lines 139-144). -/
def getAux : (r : Nat) → Store r → List Nat → Option ℚ
  | 0, v, [] => some v
  | 0, _, _ :: _ => none
  | _ + 1, _, [] => none
  | r + 1, xs, i :: key =>
    match List.get? (xs : List (Store r)) i with
    | some t => getAux r t key
    | none => none

/-- A SparseStorage of a fixed rank: the nested-list storage plus the
fill-in value (`_fillInValue`). -/
structure SparseStorage (rank : Nat) where
  storage : Store rank
  fillInValue : ℚ

/-- Python `SparseStorage.valueAtIndex` (lines 133-145): raises IndexError on a
rank mismatch, otherwise walks the lists and returns the fill-in value whenever
the walk runs off the end of a list. -/
def valueAtIndex {rank : Nat} (s : SparseStorage rank) (key : List Nat) : Except Unit ℚ :=
  if key.length = rank then .ok ((getAux rank s.storage key).getD s.fillInValue)
  else .error ()

/-- Pad a list on the right with copies of `e` so that its length is at least
`n` (the append loops in `setValueAtIndex`, lines 157-162 and 166-173). -/
def padTo {α : Type} (xs : List α) (e : α) (n : Nat) : List α :=
  xs ++ List.replicate (n - xs.length) e

/-- The element used to pad a dimension when `setValueAtIndex` grows the
storage: intermediate dimensions get empty lists (line 162), the final
dimension gets the fill-in value (line 173). -/
def padElem : (r : Nat) → ℚ → Store r
  | 0, fill => fill
  | _ + 1, _ => ([] : List (Store _))

/-- The storage-rewriting part of Python `setValueAtIndex` (lines 147-174),
assuming the rank guard has passed. -/
def setAux : (r : Nat) → Store r → List Nat → ℚ → ℚ → Store r
  | 0, _, _, _, v => v
  | _ + 1, xs, [], _, _ => xs
  | r + 1, xs, i :: key, fill, v =>
    let xs' : List (Store r) := padTo (xs : List (Store r)) (padElem r fill) (i + 1)
    xs'.set i (setAux r ((List.get? xs' i).getD (padElem r fill)) key fill v)

/-- Python `SparseStorage.setValueAtIndex` (lines 147-174): raises IndexError
on a rank mismatch (before any mutation), otherwise always succeeds, growing
the nested lists as needed. -/
def setValueAtIndex {rank : Nat} (s : SparseStorage rank) (key : List Nat) (newValue : ℚ) :
    Except Unit (SparseStorage rank) :=
  if key.length = rank then
    .ok { s with storage := setAux rank s.storage key s.fillInValue newValue }
  else .error ()

/-- One write against a storage; a failing write (rank mismatch) leaves the
storage unchanged, which is what the Python exception does. -/
def applyWrite {rank : Nat} (s : SparseStorage rank) (w : List Nat × ℚ) : SparseStorage rank :=
  match setValueAtIndex s w.1 w.2 with
  | .ok s' => s'
  | .error _ => s

/-- A freshly constructed storage (Python `__init__`, lines 100-107) followed
by a sequence of `setValueAtIndex` writes. -/
def applyWrites (rank : Nat) (fill : ℚ) (ws : List (List Nat × ℚ)) : SparseStorage rank :=
  ws.foldl applyWrite { storage := emptyStore rank, fillInValue := fill }

theorem padTo_length {α : Type} (xs : List α) (e : α) (n : Nat) :
    (padTo xs e n).length = max xs.length n := by
  simp [padTo]
  omega

theorem padTo_get_lt {α : Type} (xs : List α) (e : α) (n i : Nat) (h : i < xs.length) :
    (padTo xs e n)[i]? = xs[i]? :=
  List.getElem?_append_left h

theorem padTo_get_pad {α : Type} (xs : List α) (e : α) (n i : Nat) (h1 : xs.length ≤ i)
    (h2 : i < n) : (padTo xs e n)[i]? = some e := by
  rw [padTo, List.getElem?_append_right h1, List.getElem?_replicate]
  have : i - xs.length < n - xs.length := by omega
  simp [this]

theorem padTo_get_ge {α : Type} (xs : List α) (e : α) (n i : Nat) (h1 : xs.length ≤ i)
    (h2 : n ≤ i) : (padTo xs e n)[i]? = none := by
  apply List.getElem?_eq_none
  rw [padTo_length]
  omega

theorem getAux_padElem (r : Nat) (f : ℚ) (key : List Nat) (hk : key.length = r) :
    (getAux r (padElem r f) key).getD f = f := by
  cases r with
  | zero =>
    cases key with
    | nil => rfl
    | cons i t => simp at hk
  | succ r =>
    cases key with
    | nil => rfl
    | cons i t => simp [getAux, padElem]

theorem getAux_emptyStore (r : Nat) (hr : 1 ≤ r) (key : List Nat) (f : ℚ) :
    (getAux r (emptyStore r) key).getD f = f := by
  cases r with
  | zero => omega
  | succ r =>
    cases key with
    | nil => rfl
    | cons i t => simp [getAux, emptyStore]

theorem getAux_setAux_self : ∀ (key : List Nat) (r : Nat) (s : Store r) (f v : ℚ),
    key.length = r → getAux r (setAux r s key f v) key = some v := by
  intro key
  induction key with
  | nil =>
    intro r s f v hk
    cases r with
    | zero => rfl
    | succ r => simp at hk
  | cons i t ih =>
    intro r s f v hk
    cases r with
    | zero => simp at hk
    | succ r =>
      have ht : t.length = r := by simpa using hk
      have hilt : i < (padTo (s : List (Store r)) (padElem r f) (i + 1)).length := by
        rw [padTo_length]; omega
      simp only [setAux, getAux, List.get?_eq_getElem?, List.getElem?_set_eq_of_lt _ hilt]
      exact ih r _ f v ht

theorem getAux_setAux_frame : ∀ (k1 : List Nat) (r : Nat) (s : Store r) (k2 : List Nat)
    (f v : ℚ), k1.length = r → k2.length = r → k1 ≠ k2 →
    (getAux r (setAux r s k2 f v) k1).getD f = (getAux r s k1).getD f := by
  intro k1
  induction k1 with
  | nil =>
    intro r s k2 f v hk1 hk2 hne
    cases r with
    | zero =>
      cases k2 with
      | nil => exact absurd rfl hne
      | cons j u => simp at hk2
    | succ r => simp at hk1
  | cons i1 t1 ih =>
    intro r s k2 f v hk1 hk2 hne
    cases r with
    | zero => simp at hk1
    | succ r =>
      cases k2 with
      | nil => simp at hk2
      | cons i2 t2 =>
        have ht1 : t1.length = r := by simpa using hk1
        have ht2 : t2.length = r := by simpa using hk2
        have hi2lt : i2 < (padTo (s : List (Store r)) (padElem r f) (i2 + 1)).length := by
          rw [padTo_length]; omega
        simp only [setAux, getAux, List.get?_eq_getElem?]
        by_cases hii : i1 = i2
        · subst hii
          have htne : t1 ≠ t2 := by
            intro hteq; exact hne (by rw [hteq])
          rw [List.getElem?_set_eq_of_lt _ hi2lt]
          rcases Nat.lt_or_ge i1 (s : List (Store r)).length with hlt | hge
          · rw [padTo_get_lt _ _ _ _ hlt, List.getElem?_eq_getElem hlt]
            simpa using ih r _ t2 f v ht1 ht2 htne
          · rw [padTo_get_pad _ _ _ _ hge (by omega), List.getElem?_eq_none hge]
            simp only [Option.getD_some]
            rw [ih r _ t2 f v ht1 ht2 htne]
            simpa using getAux_padElem r f t1 ht1
        · rw [List.getElem?_set_ne (fun h => hii h.symm)]
          rcases Nat.lt_or_ge i1 (s : List (Store r)).length with hlt | hge
          · rw [padTo_get_lt _ _ _ _ hlt]
          · rw [List.getElem?_eq_none hge]
            rcases Nat.lt_or_ge i1 (i2 + 1) with hpad | hout
            · rw [padTo_get_pad _ _ _ _ hge hpad]
              simpa using getAux_padElem r f t1 ht1
            · rw [padTo_get_ge _ _ _ _ hge hout]

theorem applyWrite_fillInValue {rank : Nat} (s : SparseStorage rank) (w : List Nat × ℚ) :
    (applyWrite s w).fillInValue = s.fillInValue := by
  unfold applyWrite setValueAtIndex
  by_cases h : w.1.length = rank <;> simp [h]

theorem applyWrite_storage {rank : Nat} (s : SparseStorage rank) (w : List Nat × ℚ)
    (h : w.1.length = rank) :
    (applyWrite s w).storage = setAux rank s.storage w.1 s.fillInValue w.2 := by
  unfold applyWrite setValueAtIndex
  simp [h]

theorem foldl_applyWrite_unset (rank : Nat) (key : List Nat) (fill : ℚ)
    (hk : key.length = rank) :
    ∀ (ws : List (List Nat × ℚ)) (s : SparseStorage rank), s.fillInValue = fill →
      (∀ w ∈ ws, (w.1 : List Nat).length = rank ∧ w.1 ≠ key) →
      (getAux rank (ws.foldl applyWrite s).storage key).getD fill =
        (getAux rank s.storage key).getD fill ∧
      (ws.foldl applyWrite s).fillInValue = fill := by
  intro ws
  induction ws with
  | nil => intro s hf _; exact ⟨rfl, hf⟩
  | cons w ws ih =>
    intro s hf hws
    obtain ⟨hwlen, hwne⟩ := hws w (by simp)
    have hrest : ∀ w' ∈ ws, (w'.1 : List Nat).length = rank ∧ w'.1 ≠ key := by
      intro w' hw'; exact hws w' (by simp [hw'])
    rw [List.foldl_cons]
    obtain ⟨h1, h2⟩ := ih (applyWrite s w)
      (by rw [applyWrite_fillInValue, hf]) hrest
    refine ⟨?_, h2⟩
    rw [h1, applyWrite_storage s w hwlen, hf]
    exact getAux_setAux_frame key rank s.storage w.1 fill w.2 hk hwlen
      (fun he => hwne he.symm)

/-- C6: for a SparseStorage of rank R, a length-R write always succeeds and is
then read back exactly; a length-R index that no write has touched reads as the
fill value (reads are total and, being functional here, cannot mutate the
store); and both valueAtIndex and setValueAtIndex signal a rank-mismatch error
on any key whose length differs from R. -/
theorem sparseStorage_contract (rank : Nat) (hr : 1 ≤ rank) (s : SparseStorage rank)
    (key : List Nat) (v : ℚ) (fill : ℚ) (ws : List (List Nat × ℚ))
    (hk : key.length = rank) :
    (∃ s' : SparseStorage rank, setValueAtIndex s key v = .ok s' ∧
      valueAtIndex s' key = .ok v)
    ∧ ((∀ w ∈ ws, (w.1 : List Nat).length = rank ∧ w.1 ≠ key) →
        valueAtIndex (applyWrites rank fill ws) key = .ok fill)
    ∧ (∀ key2 : List Nat, key2.length ≠ rank →
        valueAtIndex s key2 = .error () ∧ setValueAtIndex s key2 v = .error ()) := by
  refine ⟨?_, ?_, ?_⟩
  · refine ⟨{ s with storage := setAux rank s.storage key s.fillInValue v }, ?_, ?_⟩
    · unfold setValueAtIndex; simp [hk]
    · unfold valueAtIndex
      simp only [hk, if_pos]
      rw [getAux_setAux_self key rank s.storage s.fillInValue v hk]
      rfl
  · intro hws
    unfold valueAtIndex
    have hbase : ({ storage := emptyStore rank, fillInValue := fill } :
        SparseStorage rank).fillInValue = fill := rfl
    obtain ⟨h1, h2⟩ := foldl_applyWrite_unset rank key fill hk ws
      { storage := emptyStore rank, fillInValue := fill } hbase hws
    unfold applyWrites
    simp only [hk, if_pos, h2]
    rw [h1]
    rw [getAux_emptyStore rank hr key fill]
  · intro key2 hk2
    constructor
    · unfold valueAtIndex; simp [hk2]
    · unfold setValueAtIndex; simp [hk2]

/-- Witness for C6 at rank 2: writing 3 at index (0,1) of a store with fill 7
reads back 3; after an unrelated write at (1,0), the untouched index (0,1)
still reads the fill value 7; and the length-1 key (0) is a rank error. -/
theorem sparseStorage_contract_witness :
    (∃ s' : SparseStorage 2,
      setValueAtIndex (applyWrites 2 7 []) [0, 1] 3 = .ok s' ∧
      valueAtIndex s' [0, 1] = .ok 3)
    ∧ valueAtIndex (applyWrites 2 7 [([1, 0], 9)]) [0, 1] = .ok 7
    ∧ (valueAtIndex (applyWrites 2 7 []) [0] = .error () ∧
       setValueAtIndex (applyWrites 2 7 []) [0] 3 = .error ()) := by
  obtain ⟨h1, h2, h3⟩ := sparseStorage_contract 2 (by decide) (applyWrites 2 7 [])
    [0, 1] 3 7 [([1, 0], 9)] (by decide)
  exact ⟨h1, h2 (by decide), h3 [0] (by decide)⟩

/-! ## Options (itemal.py lines 199-250)

An Options object keeps a plain dict `_values` of assigned attributes; reads
fall back to the class-level `defaultValues` dict.  We model `_values` as an
association list in insertion order, exactly mirroring dict semantics for the
three known keys. -/

/-- The value type of an option attribute (the defaults are bools and an int). -/
inductive OptVal where
  | bool (b : Bool)
  | int (n : ℤ)
deriving DecidableEq

/-- Python `Options.defaultValues` (lines 211-215). -/
def defaultValues : List (String × OptVal) :=
  [("is-order-reversed", OptVal.bool false),
   ("number-of-copies", OptVal.int 1),
   ("should-eval-full-exam-only", OptVal.bool false)]

/-- One `d[key] = v` store on a dict modelled as an ordered association list:
replace the entry if the key is present, otherwise append it. -/
def dictSet (vals : List (String × OptVal)) (key : String) (v : OptVal) :
    List (String × OptVal) :=
  if (List.lookup key vals).isSome then
    vals.map (fun p => if p.1 = key then (key, v) else p)
  else vals ++ [(key, v)]

/-- Python `dict.update`: store every entry of `other` into `vals`, in order. -/
def dictUpdate (vals other : List (String × OptVal)) : List (String × OptVal) :=
  other.foldl (fun acc kv => dictSet acc kv.1 kv.2) vals

/-- Python `Options.__getitem__` (lines 241-242):
`self._values.get(key, self.defaultValues[key])`; `none` models the KeyError
raised for a key that is not a known option attribute at all. -/
def optionValue (vals : List (String × OptVal)) (key : String) : Option OptVal :=
  match List.lookup key vals with
  | some v => some v
  | none => List.lookup key defaultValues

/-- Python `Options.mergeWithOptions` (lines 244-246):
`self._values.update(otherOptions._values)` — every attribute with an assigned
value in `other` is stored into the receiver, overwriting the receiver's own
assignment when both are assigned. -/
def mergeWithOptions (self other : List (String × OptVal)) : List (String × OptVal) :=
  dictUpdate self other

/-- The option handling of Python `Exam.addExamSection` (line 606):
`examSection.options().mergeWithOptions(self._options)` — the receiver is the
SECTION options object and the argument is the EXAM options object, so the
section options after the add are the section values updated by the exam
values. -/
def addExamSectionOptions (sectionVals examVals : List (String × OptVal)) :
    List (String × OptVal) :=
  mergeWithOptions sectionVals examVals

theorem lookup_map_replace (key : String) (v : OptVal) :
    ∀ (vals : List (String × OptVal)) (w : OptVal), List.lookup key vals = some w →
      List.lookup key (vals.map (fun p => if p.1 = key then (key, v) else p)) = some v := by
  intro vals
  induction vals with
  | nil => intro w hw; simp at hw
  | cons p rest ih =>
    intro w hw
    by_cases hp : p.1 = key
    · simp only [List.map_cons, if_pos hp]
      rw [List.lookup_cons]
      simp
    · simp only [List.map_cons, if_neg hp]
      have hkp : (key == p.1) = false := beq_false_of_ne (fun h => hp h.symm)
      obtain ⟨p1, p2⟩ := p
      rw [List.lookup_cons] at hw ⊢
      simp only at hkp
      rw [hkp] at hw ⊢
      exact ih w hw

theorem lookup_append_left_none (key : String) :
    ∀ (vals rest : List (String × OptVal)), List.lookup key vals = none →
      List.lookup key (vals ++ rest) = List.lookup key rest := by
  intro vals
  induction vals with
  | nil => intro rest _; rfl
  | cons p tail ih =>
    intro rest hw
    obtain ⟨p1, p2⟩ := p
    rw [List.cons_append, List.lookup_cons]
    rw [List.lookup_cons] at hw
    cases hkp : key == p1 with
    | true => rw [hkp] at hw; simp at hw
    | false => rw [hkp] at hw; exact ih rest hw

theorem lookup_dictSet_self (vals : List (String × OptVal)) (key : String) (v : OptVal) :
    List.lookup key (dictSet vals key v) = some v := by
  unfold dictSet
  cases hv : List.lookup key vals with
  | some w =>
    simp only [hv, Option.isSome_some, if_pos]
    exact lookup_map_replace key v vals w hv
  | none =>
    simp only [hv, Option.isSome_none, Bool.false_eq_true, if_false]
    rw [lookup_append_left_none key vals _ hv, List.lookup_cons]
    simp

theorem lookup_map_replace_ne (key key2 : String) (v : OptVal) (hne : key2 ≠ key) :
    ∀ vals : List (String × OptVal),
      List.lookup key2 (vals.map (fun p => if p.1 = key then (key, v) else p)) =
        List.lookup key2 vals := by
  intro vals
  induction vals with
  | nil => rfl
  | cons p rest ih =>
    obtain ⟨p1, p2⟩ := p
    by_cases hp : p1 = key
    · subst hp
      simp only [List.map_cons, if_pos]
      rw [List.lookup_cons, List.lookup_cons]
      have hk : (key2 == p1) = false := beq_false_of_ne hne
      rw [hk]
      try exact ih
    · simp only [List.map_cons, if_neg hp]
      rw [List.lookup_cons, List.lookup_cons]
      cases hk : key2 == p1 with
      | true => rfl
      | false => exact ih

theorem lookup_append_pair_ne (key key2 : String) (v : OptVal) (hne : key2 ≠ key) :
    ∀ vals : List (String × OptVal),
      List.lookup key2 (vals ++ [(key, v)]) = List.lookup key2 vals := by
  intro vals
  induction vals with
  | nil =>
    rw [List.nil_append, List.lookup_cons]
    have hk : (key2 == key) = false := beq_false_of_ne hne
    rw [hk]
  | cons p rest ih =>
    obtain ⟨p1, p2⟩ := p
    rw [List.cons_append, List.lookup_cons, List.lookup_cons]
    cases hk : key2 == p1 with
    | true => rfl
    | false => exact ih

theorem lookup_dictSet_ne (vals : List (String × OptVal)) (key key2 : String) (v : OptVal)
    (hne : key2 ≠ key) : List.lookup key2 (dictSet vals key v) = List.lookup key2 vals := by
  unfold dictSet
  cases hv : (List.lookup key vals).isSome with
  | true =>
    rw [if_pos rfl]
    exact lookup_map_replace_ne key key2 v hne vals
  | false =>
    rw [if_neg (by simp)]
    exact lookup_append_pair_ne key key2 v hne vals

theorem lookup_mem_keys (key : String) :
    ∀ (l : List (String × OptVal)) (w : OptVal), List.lookup key l = some w →
      key ∈ l.map Prod.fst := by
  intro l
  induction l with
  | nil => intro w h; simp at h
  | cons p rest ih =>
    intro w h
    obtain ⟨p1, p2⟩ := p
    rw [List.lookup_cons] at h
    cases hk : key == p1 with
    | true =>
      have : key = p1 := eq_of_beq hk
      simp [this]
    | false =>
      rw [hk] at h
      simp only [List.map_cons, List.mem_cons]
      exact Or.inr (ih w h)

theorem lookup_dictUpdate (key : String) :
    ∀ (other vals : List (String × OptVal)), (other.map Prod.fst).Nodup →
      List.lookup key (dictUpdate vals other) =
        match List.lookup key other with
        | some v => some v
        | none => List.lookup key vals := by
  intro other
  induction other with
  | nil => intro vals _; rfl
  | cons p rest ih =>
    intro vals hnd
    obtain ⟨p1, p2⟩ := p
    obtain ⟨hp1, hndrest⟩ : p1 ∉ rest.map Prod.fst ∧ (rest.map Prod.fst).Nodup := by
      simpa using hnd
    show List.lookup key (dictUpdate (dictSet vals p1 p2) rest) = _
    rw [ih (dictSet vals p1 p2) hndrest, List.lookup_cons]
    by_cases hk : key = p1
    · subst hk
      have hrest : List.lookup key rest = none := by
        cases hr : List.lookup key rest with
        | none => rfl
        | some w =>
          exact absurd (lookup_mem_keys key rest w hr) hp1
      rw [hrest]
      simp only [beq_self_eq_true]
      rw [lookup_dictSet_self]
    · have hkb : (key == p1) = false := beq_false_of_ne hk
      rw [hkb]
      cases hr : List.lookup key rest with
      | some w => rfl
      | none => rw [lookup_dictSet_ne vals p1 key p2 hk]

/-- C8 as amended: after `Exam.addExamSection` hands the exam options to the
section via `mergeWithOptions`, an attribute that the EXAM options assign takes
the exam value (overriding any value the section had assigned), and only
attributes the exam has not assigned keep the section's value. -/
theorem addExamSectionOptions_examWins (sectionVals examVals : List (String × OptVal))
    (key : String) (hnd : (examVals.map Prod.fst).Nodup) :
    (∀ v : OptVal, List.lookup key examVals = some v →
      optionValue (addExamSectionOptions sectionVals examVals) key = some v)
    ∧ (List.lookup key examVals = none →
      optionValue (addExamSectionOptions sectionVals examVals) key =
        optionValue sectionVals key) := by
  constructor
  · intro v hv
    unfold optionValue addExamSectionOptions mergeWithOptions
    rw [lookup_dictUpdate key examVals sectionVals hnd, hv]
  · intro hv
    unfold optionValue addExamSectionOptions mergeWithOptions
    rw [lookup_dictUpdate key examVals sectionVals hnd, hv]

/-- Counterexample for C8 as stated: a section that assigns
is-order-reversed := false, added to an exam that assigns
is-order-reversed := true, ends up with the EXAM value true; the claim says the
section keeps its own assigned value false. -/
theorem addExamSectionOptions_counterexample :
    optionValue (addExamSectionOptions [("is-order-reversed", OptVal.bool false)]
        [("is-order-reversed", OptVal.bool true)]) "is-order-reversed"
      = some (OptVal.bool true)
    ∧ optionValue (addExamSectionOptions [("is-order-reversed", OptVal.bool false)]
        [("is-order-reversed", OptVal.bool true)]) "is-order-reversed"
      ≠ some (OptVal.bool false) := by
  exact ⟨rfl, by decide⟩

/-- Witness for the amended C8: an exam-assigned attribute takes the exam
value; an attribute the exam leaves unassigned keeps the section value. -/
theorem addExamSectionOptions_examWins_witness :
    optionValue (addExamSectionOptions [("number-of-copies", OptVal.int 2)]
        [("is-order-reversed", OptVal.bool true)]) "is-order-reversed"
      = some (OptVal.bool true)
    ∧ optionValue (addExamSectionOptions [("number-of-copies", OptVal.int 2)]
        [("is-order-reversed", OptVal.bool true)]) "number-of-copies"
      = some (OptVal.int 2) := by
  constructor
  · exact (addExamSectionOptions_examWins [("number-of-copies", OptVal.int 2)]
      [("is-order-reversed", OptVal.bool true)] "is-order-reversed" (by simp)).1
      (OptVal.bool true) rfl
  · exact ((addExamSectionOptions_examWins [("number-of-copies", OptVal.int 2)]
      [("is-order-reversed", OptVal.bool true)] "number-of-copies" (by simp)).2
      rfl).trans rfl

/-! ## StudentAnswers and ExamSection (itemal.py lines 256-498)

A StudentAnswers group holds parallel lists of per-student scores and
per-student answer vectors; an ExamSection holds the answer key, the maximum
valid choice index `responsesPerQuestion`, the option values, and the ordered
group list. -/

structure StudentAnswers where
  groupId : String
  scores : List ℤ
  answers : List (List ℤ)
deriving DecidableEq

/-- Python `max` of a nonempty int list; the empty case is junk 0 (Python
raises TypeError there, a case no theorem below reaches). -/
def listMax : List ℤ → ℤ
  | [] => 0
  | x :: xs => xs.foldl max x

/-- Python `StudentAnswers.maxResponseCount` (lines 309-310). -/
def maxResponseCount (sa : StudentAnswers) : ℤ :=
  listMax (sa.answers.map listMax)

/-- Python `StudentAnswers.answerCount` (lines 312-313). -/
def answerCount (sa : StudentAnswers) : ℕ :=
  match sa.answers with
  | [] => 0
  | a :: _ => a.length

/-- Python `StudentAnswers.studentCount` (lines 315-316). -/
def studentCount (sa : StudentAnswers) : ℕ := sa.answers.length

structure ExamSection where
  responsesPerQuestion : ℤ
  answerKey : List ℤ
  groups : List StudentAnswers
  options : List (String × OptVal)
deriving DecidableEq

/-- Python `x in list` for the check
`studentAnswers.groupId() in self._studentAnswersGroups` (line 450): the left
operand is a STRING while the list elements are StudentAnswers OBJECTS, so each
elementwise `==` compares a str with a StudentAnswers instance; str defines no
equality with that class and StudentAnswers defines no `__eq__`, so Python
falls back to identity, and a str object is never the same object as a
StudentAnswers instance: the comparison is always False. -/
def pyEqStrStudentAnswers (_ : String) (_ : StudentAnswers) : Bool := false

/-- Python `ExamSection.addStudentAnswers` (lines 449-467), including the
always-false duplicate-group membership test of line 450. -/
def addStudentAnswers (sec : ExamSection) (sa : StudentAnswers) :
    Except String ExamSection :=
  if sec.groups.any (fun og => pyEqStrStudentAnswers sa.groupId og) then
    .error "KeyError: group already exists in exam section"
  else if 0 < answerCount sa then
    if _hne : sec.groups ≠ [] ∧
        answerCount sa ≠ answerCount (sec.groups.headD ⟨"", [], []⟩) then
      .error "ValueError: attempt to add answer group of mismatched dimension"
    else if sec.responsesPerQuestion = 0 then
      .ok { sec with responsesPerQuestion := maxResponseCount sa,
                     groups := sec.groups ++ [sa] }
    else if sec.responsesPerQuestion < maxResponseCount sa then
      .error "ValueError: maximum response count exceeds exam section count"
    else .ok { sec with groups := sec.groups ++ [sa] }
  else .ok { sec with groups := sec.groups ++ [sa] }

/-- C7 (code bug): the duplicate-group check of `addStudentAnswers` compares
the incoming group id string against the STORED GROUP OBJECTS, never the
stored ids, so it never fires: a group whose id is already present is appended
anyway (provided only the dimension and range checks pass), leaving the
section with two groups of the same id. -/
theorem addStudentAnswers_duplicate_admitted (sec : ExamSection) (sa : StudentAnswers)
    (hdup : sa.groupId ∈ sec.groups.map StudentAnswers.groupId)
    (hdim : ∀ og, sec.groups.head? = some og → answerCount sa = answerCount og)
    (hrpq : sec.responsesPerQuestion ≠ 0)
    (hmax : maxResponseCount sa ≤ sec.responsesPerQuestion) :
    addStudentAnswers sec sa = .ok { sec with groups := sec.groups ++ [sa] }
    ∧ 2 ≤ ((sec.groups ++ [sa]).map StudentAnswers.groupId).count sa.groupId := by
  constructor
  · unfold addStudentAnswers
    rw [if_neg (by simp [pyEqStrStudentAnswers])]
    by_cases hac : 0 < answerCount sa
    · rw [if_pos hac]
      have hdim2 : ¬ (sec.groups ≠ [] ∧
          answerCount sa ≠ answerCount (sec.groups.headD ⟨"", [], []⟩)) := by
        rintro ⟨hne, hnedim⟩
        cases hgs : sec.groups with
        | nil => exact hne hgs
        | cons g rest =>
          apply hnedim
          rw [hgs]
          exact hdim g (by rw [hgs]; rfl)
      rw [dif_neg hdim2, if_neg hrpq, if_neg (by omega)]
    · rw [if_neg hac]
  · have hone : 1 ≤ (sec.groups.map StudentAnswers.groupId).count sa.groupId :=
      List.one_le_count_iff.mpr hdup
    rw [List.map_append, List.count_append]
    simp only [List.map_cons, List.map_nil]
    have : (([sa.groupId] : List String).count sa.groupId) = 1 := by simp
    omega

/-- Witness for C7: a section already holding a group with id g1 accepts a
second group with the same id g1; afterwards two groups carry id g1. -/
theorem addStudentAnswers_duplicate_admitted_witness :
    addStudentAnswers
        { responsesPerQuestion := 4, answerKey := [1, 2],
          groups := [⟨"g1", [2], [[1, 2]]⟩], options := [] }
        ⟨"g1", [1], [[1, 3]]⟩
      = .ok { responsesPerQuestion := 4, answerKey := [1, 2],
              groups := [⟨"g1", [2], [[1, 2]]⟩, ⟨"g1", [1], [[1, 3]]⟩], options := [] }
    ∧ 2 ≤ (([⟨"g1", [2], [[1, 2]]⟩, ⟨"g1", [1], [[1, 3]]⟩] :
        List StudentAnswers).map StudentAnswers.groupId).count "g1" := by
  have h := addStudentAnswers_duplicate_admitted
    { responsesPerQuestion := 4, answerKey := [1, 2],
      groups := [⟨"g1", [2], [[1, 2]]⟩], options := [] }
    ⟨"g1", [1], [[1, 3]]⟩ (by simp) (by intro og hog; simp at hog; subst hog; rfl)
    (by decide) (by decide)
  exact ⟨h.1, h.2⟩

/-! ## reverseAnswerOrdering (itemal.py lines 337-339 and 484-492)

The reversed-order remapping code manipulates dynamically typed Python values,
and the claims about it hinge on which runtime type each expression has.  We
therefore model just enough of the Python value universe: ints and lists, the
binary minus, truthiness, and iteration, each raising TypeError exactly where
CPython does. -/

inductive Py where
  | int (n : ℤ)
  | list (xs : List Py)

/-- Python binary `-`: defined for int - int, TypeError otherwise (in
particular for int - list). -/
def pySub : Py → Py → Except String Py
  | .int a, .int b => .ok (.int (a - b))
  | _, _ => .error "TypeError: unsupported operand types for minus"

/-- Python truthiness: an int is truthy iff nonzero, a list iff nonempty. -/
def pyTruthy : Py → Bool
  | .int n => n ≠ 0
  | .list xs => !xs.isEmpty

/-- Python iteration (`for i in x`): lists iterate, ints raise TypeError. -/
def pyIter : Py → Except String (List Py)
  | .list xs => .ok xs
  | .int _ => .error "TypeError: int object is not iterable"

/-- Python `StudentAnswers.reverseAnswerOrdering` (lines 337-339):
`self._answers = [((responsesPerAnswer + 1 - i) if i else 0) for i in
self._answers]`.  The comprehension variable `i` ranges over the PER-STUDENT
ANSWER LISTS, not over single answers, so for any student with a nonempty
answer list the expression subtracts a list from an int. -/
def reverseAnswerOrdering (responsesPerAnswer : ℤ) (answers : List (List ℤ)) :
    Except String (List Py) :=
  if answers.isEmpty then .ok (answers.map (fun a => Py.list (a.map Py.int)))
  else answers.mapM (fun a =>
    if pyTruthy (Py.list (a.map Py.int)) then
      pySub (Py.int (responsesPerAnswer + 1)) (Py.list (a.map Py.int))
    else pure (Py.int 0))

/-- The method names that the Python class ExamSection actually defines
(lines 346-498); attribute lookup on any other name raises AttributeError. -/
def examSectionMethodNames : List String :=
  ["exportAsDict", "options", "setOptions", "responsesPerQuestion",
   "setResponsesPerQuestion", "answerKey", "questionCount", "setAnswerKey",
   "studentCount", "totalStudentCount", "studentAnswersGroups",
   "studentAnswersGroupsCount", "studentAnswersGroupAtIndex",
   "studentAnswersGroupIds", "studentAnswersForGroupId",
   "setStudentAnswersGroups", "addStudentAnswers", "fortranFormatString",
   "setFortranFormatString", "fortranNewPageBadges", "setFortranNewPageBadge",
   "statisticalSummary", "setStatisticalSummary",
   "reverseAnswerOrderingIfNecessary", "calculateScoresFromAnswerKey"]

/-- Python attribute lookup `self.<name>()` on an ExamSection. -/
def callSectionMethod (name : String) : Except String Unit :=
  if name ∈ examSectionMethodNames then .ok ()
  else .error "AttributeError: ExamSection object has no such attribute"

/-- Python `ExamSection.reverseAnswerOrderingIfNecessary` (lines 484-492),
statement by statement: the option guard; the RuntimeError guard on a
non-positive responsesPerQuestion; the key remap, whose comprehension
`[(responsesPerQuestion + 1 - i) for i in responsesPerQuestion]` iterates over
the INT responsesPerQuestion; then the call of the method name
`studentAnswerGroups` which the class does not define (the defined method is
`studentAnswersGroups`). -/
def reverseAnswerOrderingIfNecessary (sec : ExamSection) : Except String Unit :=
  if optionValue sec.options "is-order-reversed" = some (OptVal.bool true) then
    if sec.responsesPerQuestion ≤ 0 then
      .error "RuntimeError: unable to reorder answer indices"
    else do
      if sec.answerKey ≠ [] then
        let items ← pyIter (Py.int sec.responsesPerQuestion)
        let _ ← items.mapM (fun i => pySub (Py.int (sec.responsesPerQuestion + 1)) i)
        pure ()
      let _ ← callSectionMethod "studentAnswerGroups"
      pure ()
  else .ok ()

/-- C2 (code bug): whenever the reversed-order option is set and
responsesPerQuestion is at least 1, `reverseAnswerOrderingIfNecessary` raises
instead of remapping anything: with a nonempty answer key the key
comprehension iterates over an int (TypeError); with an empty key the student
loop calls the undefined method `studentAnswerGroups` (AttributeError);
and `StudentAnswers.reverseAnswerOrdering` itself subtracts a student's
answer LIST from an int (TypeError) for any student with at least one answer. -/
theorem reverseAnswerOrdering_raises (sec : ExamSection)
    (hopt : optionValue sec.options "is-order-reversed" = some (OptVal.bool true))
    (hrpq : 1 ≤ sec.responsesPerQuestion) :
    (∃ msg, reverseAnswerOrderingIfNecessary sec = .error msg)
    ∧ (∀ (rpa : ℤ) (answers : List (List ℤ)) (a : List ℤ),
        a ∈ answers → a ≠ [] → ∃ msg, reverseAnswerOrdering rpa answers = .error msg) := by
  constructor
  · unfold reverseAnswerOrderingIfNecessary
    rw [if_pos hopt, if_neg (by omega)]
    by_cases hkey : sec.answerKey ≠ []
    · exact ⟨"TypeError: int object is not iterable", by rw [if_pos hkey]; rfl⟩
    · refine ⟨"AttributeError: ExamSection object has no such attribute", ?_⟩
      rw [if_neg hkey]
      rfl
  · intro rpa answers a ha hane
    unfold reverseAnswerOrdering
    rw [if_neg (by simp [List.isEmpty_iff]; rintro rfl; simp at ha)]
    refine ⟨"TypeError: unsupported operand types for minus", ?_⟩
    induction answers with
    | nil => simp at ha
    | cons b rest ih =>
      rw [List.mapM_cons]
      rcases List.mem_cons.mp ha with hab | harest
      · subst hab
        have htr : pyTruthy (Py.list (a.map Py.int)) = true := by
          simp [pyTruthy, List.isEmpty_iff, hane]
        rw [if_pos htr]
        rfl
      · by_cases hb : pyTruthy (Py.list (b.map Py.int)) = true
        · rw [if_pos hb]
          cases b with
          | nil => simp [pyTruthy] at hb
          | cons x xs => rfl
        · rw [if_neg hb]
          rw [ih harest]
          rfl

/-- Witness for C2: a concrete reversed-order section with key [1, 2] and
responsesPerQuestion 4 raises, and so does the per-group remap on a student
with answers [1, 2]. -/
theorem reverseAnswerOrdering_raises_witness :
    (∃ msg, reverseAnswerOrderingIfNecessary
      { responsesPerQuestion := 4, answerKey := [1, 2],
        groups := [⟨"g1", [2], [[1, 2]]⟩],
        options := [("is-order-reversed", OptVal.bool true)] } = .error msg)
    ∧ (∃ msg, reverseAnswerOrdering 4 [[1, 2]] = .error msg) := by
  have h := reverseAnswerOrdering_raises
    { responsesPerQuestion := 4, answerKey := [1, 2],
      groups := [⟨"g1", [2], [[1, 2]]⟩],
      options := [("is-order-reversed", OptVal.bool true)] }
    (by rfl) (by decide)
  exact ⟨h.1, h.2 4 [[1, 2]] [1, 2] (by simp) (by simp)⟩

/-! ## The per-student tally loop of processExamSection (itemal.py lines 740-762)

The inner `while i < len(answerKey)` loop tallies one student's answers.  Its
`continue` statements (taken for a negative or too-large response) jump back to
the loop test WITHOUT executing the `i += 1` at the bottom of the body, so the
loop re-runs forever on the same question.  We embed the loop with explicit
fuel: `none` means the given number of iterations did not finish the loop. -/

structure TallyState where
  ICOUNT : ℕ → ℤ
  ITC : ℕ → ℤ
  ITIC : ℕ → ℤ
  JTOT : ℕ → ℤ → ℤ
  KSUM : ℕ → ℤ → ℤ
  ITAB : ℕ → ℤ → ℕ → ℤ
  messages : List String

/-- Pointwise increment of a rank-1 accumulator (`addValueAtIndex`). -/
def bump1 (f : ℕ → ℤ) (k : ℕ) (d : ℤ) : ℕ → ℤ :=
  fun x => if x = k then f x + d else f x

/-- Pointwise increment of a rank-2 accumulator. -/
def bump2 (f : ℕ → ℤ → ℤ) (k1 : ℕ) (k2 : ℤ) (d : ℤ) : ℕ → ℤ → ℤ :=
  fun x y => if x = k1 ∧ y = k2 then f x y + d else f x y

/-- Pointwise increment of a rank-3 accumulator. -/
def bump3 (f : ℕ → ℤ → ℕ → ℤ) (k1 : ℕ) (k2 : ℤ) (k3 : ℕ) (d : ℤ) : ℕ → ℤ → ℕ → ℤ :=
  fun x y z => if x = k1 ∧ y = k2 ∧ z = k3 then f x y z + d else f x y z

/-- The `while i < len(answerKey)` loop body of lines 741-762, for one student
of group `l` with the given score, run with the given fuel from question index
`i`.  Each iteration first does the correctness tally (ICOUNT/ITC/ITIC, lines
742-746), then either records a warning and `continue`s with `i` UNCHANGED
(lines 747-756) or tallies the choice (ITAB/JTOT/KSUM, lines 757-761) and
increments `i` (line 762). -/
def tallyStudentLoop (answerKey studentAnswers : List ℤ) (score icho : ℤ) (l : ℕ) :
    ℕ → ℕ → TallyState → Option TallyState
  | 0, _, _ => none
  | fuel + 1, i, st =>
    if i < answerKey.length then
      let a := studentAnswers.getD i 0
      let st1 :=
        if answerKey.getD i 0 = a then
          { st with ICOUNT := bump1 st.ICOUNT (i + 1) 1, ITC := bump1 st.ITC (i + 1) score }
        else { st with ITIC := bump1 st.ITIC (i + 1) score }
      if a < 0 then
        tallyStudentLoop answerKey studentAnswers score icho l fuel i
          { st1 with messages := st1.messages ++
              ["A RESPONSE FOR QUESTION " ++ toString (i + 1) ++ " FOR GROUP " ++
               toString l ++ " READ AS NEGATIVE"] }
      else if icho < a then
        tallyStudentLoop answerKey studentAnswers score icho l fuel i
          { st1 with messages := st1.messages ++
              ["A RESPONSE FOR QUESTION " ++ toString (i + 1) ++ " FOR GROUP " ++
               toString l ++ " READ AS GREATER THAN " ++ toString icho] }
      else
        tallyStudentLoop answerKey studentAnswers score icho l fuel (i + 1)
          { st1 with
            ITAB := bump3 st1.ITAB (i + 1) (a + 1) l 1,
            JTOT := bump2 st1.JTOT (i + 1) (a + 1) 1,
            KSUM := bump2 st1.KSUM (i + 1) (a + 1) score }
    else some st

/-- C1 (code bug): if some question i0 of a student carries a negative or
out-of-range response (all earlier responses being in range), the tally loop
never terminates: for EVERY fuel bound the loop fails to finish.  The claimed
behaviour (record one warning, skip the choice tally, keep going and complete
the section) is what the loop was meant to do; the `continue` without the
`i += 1` makes it loop on question i0 forever. -/
theorem tallyStudentLoop_nonterminating (answerKey studentAnswers : List ℤ)
    (score icho : ℤ) (l i0 : ℕ) (hi0 : i0 < answerKey.length)
    (hbad : studentAnswers.getD i0 0 < 0 ∨ icho < studentAnswers.getD i0 0)
    (hgood : ∀ j, j < i0 → 0 ≤ studentAnswers.getD j 0 ∧ studentAnswers.getD j 0 ≤ icho) :
    ∀ (fuel : ℕ) (st : TallyState),
      tallyStudentLoop answerKey studentAnswers score icho l fuel 0 st = none := by
  have main : ∀ (fuel i : ℕ) (st : TallyState), i ≤ i0 →
      tallyStudentLoop answerKey studentAnswers score icho l fuel i st = none := by
    intro fuel
    induction fuel with
    | zero => intro i st _; rfl
    | succ fuel ih =>
      intro i st hle
      unfold tallyStudentLoop
      rw [if_pos (by omega : i < answerKey.length)]
      by_cases hii : i = i0
      · subst hii
        by_cases hneg : studentAnswers.getD i 0 < 0
        · rw [if_pos hneg]
          exact ih i _ hle
        · have hgt : icho < studentAnswers.getD i 0 := hbad.resolve_left hneg
          rw [if_neg hneg, if_pos hgt]
          exact ih i _ hle
      · have hlt : i < i0 := lt_of_le_of_ne hle hii
        obtain ⟨h0, h1⟩ := hgood i hlt
        rw [if_neg (by omega), if_neg (by omega)]
        exact ih (i + 1) _ (by omega)
  intro fuel st
  exact main fuel 0 st (Nat.zero_le i0)

/-- In contrast, on a student whose responses are all in range the loop
finishes with fuel one more than the question count (this is the only
situation in which processExamSection completes, and it justifies the direct
functional tallies used for the statistics claims below). -/
theorem tallyStudentLoop_terminates (answerKey studentAnswers : List ℤ)
    (score icho : ℤ) (l : ℕ)
    (hgood : ∀ j, j < answerKey.length →
      0 ≤ studentAnswers.getD j 0 ∧ studentAnswers.getD j 0 ≤ icho) :
    ∀ (n i : ℕ) (st : TallyState), answerKey.length ≤ i + n →
      ∃ out, tallyStudentLoop answerKey studentAnswers score icho l (n + 1) i st = some out := by
  intro n
  induction n with
  | zero =>
    intro i st h
    refine ⟨st, ?_⟩
    unfold tallyStudentLoop
    rw [if_neg (by omega)]
  | succ n ih =>
    intro i st h
    by_cases hi : i < answerKey.length
    · obtain ⟨h0, h1⟩ := hgood i hi
      unfold tallyStudentLoop
      rw [if_pos hi, if_neg (by omega), if_neg (by omega)]
      exact ih (i + 1) _ (by omega)
    · refine ⟨st, ?_⟩
      unfold tallyStudentLoop
      rw [if_neg hi]

/-- Witness for C1: on answer key [1] and the single student response [-1]
(question 1 read as negative), the loop completes under no fuel bound, here
instantiated at fuel 5. -/
theorem tallyStudentLoop_nonterminating_witness :
    tallyStudentLoop [1] [-1] 0 5 1 5 0
      ⟨fun _ => 0, fun _ => 0, fun _ => 0, fun _ _ => 0, fun _ _ => 0,
       fun _ _ _ => 0, []⟩ = none :=
  tallyStudentLoop_nonterminating [1] [-1] 0 5 1 0 (by decide) (Or.inl (by decide))
    (fun j hj => absurd hj (by omega)) 5 _

/-! ## Statistics pipeline (itemal.py lines 636-1063)

Functional form of the per-section tallies of processExamSection.  These are
the values the loop of lines 722-762 accumulates when it terminates, i.e. when
every response is in range (theorem tallyStudentLoop_terminates above); the
statistics theorems below carry that well-formedness as a hypothesis. -/

/-- Every (score, answer-vector) pair of the section, in group order then
student order (lines 723-739; the loop reads scores[a] and answers[a] in
parallel). -/
def studentsOf (sec : ExamSection) : List (ℤ × List ℤ) :=
  sec.groups.flatMap (fun g => g.scores.zip g.answers)

/-- Python `ExamSection.totalStudentCount` (lines 428-432): the summed length
of the per-group answers lists, assigned to `ITN` at line 692. -/
def sectionN (sec : ExamSection) : ℕ :=
  (sec.groups.map (fun g => g.answers.length)).sum

/-- `ISUM` after the group loop (line 732): the sum of all group score lists. -/
def ISUM (sec : ExamSection) : ℤ :=
  (sec.groups.map (fun g => g.scores.sum)).sum

/-- `ISUMSQ` after the group loop (line 733). -/
def ISUMSQ (sec : ExamSection) : ℤ :=
  (sec.groups.map (fun g => (g.scores.map (fun s => s ^ 2)).sum)).sum

/-- `ICOUNT[[i+1]]` after the tally loop (line 743, 0-based question index i):
the number of students whose answer at question i equals the key. -/
def ICOUNT (sec : ExamSection) (i : ℕ) : ℕ :=
  (studentsOf sec).countP (fun st => decide (st.2.getD i 0 = sec.answerKey.getD i 0))

/-- `ITC[[i+1]]` after the tally loop (line 744): summed scores of the
students who answered question i correctly. -/
def ITC (sec : ExamSection) (i : ℕ) : ℤ :=
  (((studentsOf sec).filter
    (fun st => decide (st.2.getD i 0 = sec.answerKey.getD i 0))).map Prod.fst).sum

/-- `ITIC[[i+1]]` after the tally loop (line 746): summed scores of the
students who answered question i incorrectly. -/
def ITIC (sec : ExamSection) (i : ℕ) : ℤ :=
  (((studentsOf sec).filter
    (fun st => !decide (st.2.getD i 0 = sec.answerKey.getD i 0))).map Prod.fst).sum

/-- `JTOT[[i+1, j]]` after the tally loop (line 760): the number of in-range
responses with value j - 1 at question i (j = response + 1). -/
def JTOT (sec : ExamSection) (i : ℕ) (j : ℤ) : ℕ :=
  (studentsOf sec).countP (fun st => decide (0 ≤ st.2.getD i 0 ∧
    st.2.getD i 0 ≤ sec.responsesPerQuestion ∧ st.2.getD i 0 + 1 = j))

/-- `FITN` (line 693). -/
noncomputable def FITN (sec : ExamSection) : ℝ := (sectionN sec : ℝ)

/-- `FMEAN` (line 804). -/
noncomputable def FMEAN (sec : ExamSection) : ℝ := (ISUM sec : ℝ) / FITN sec

/-- `FVAR` (line 805). -/
noncomputable def FVAR (sec : ExamSection) : ℝ :=
  (FITN sec * (ISUMSQ sec : ℝ) - (ISUM sec : ℝ) ^ 2) / (FITN sec * (FITN sec - 1))

/-- `SDEV` (line 807). -/
noncomputable def SDEV (sec : ExamSection) : ℝ := Real.sqrt (FVAR sec)

/-- `DIFI[[i]]` (line 773, 0-based question index). -/
noncomputable def DIFI (sec : ExamSection) (i : ℕ) : ℝ := (ICOUNT sec i : ℝ) / FITN sec

/-- `PROP[[i, j]]` (line 771). -/
noncomputable def PROP (sec : ExamSection) (i : ℕ) (j : ℤ) : ℝ :=
  (JTOT sec i j : ℝ) / FITN sec

/-- Python `math.isclose` with its default tolerances (`rel_tol=1e-09`,
`abs_tol=0.0`), as used at lines 822, 826, 951, 1008, 1017. -/
def isclose (a b : ℝ) : Prop := |a - b| ≤ 1 / 1000000000 * max |a| |b|

noncomputable instance iscloseDec (a b : ℝ) : Decidable (isclose a b) :=
  inferInstanceAs (Decidable (|a - b| ≤ 1 / 1000000000 * max |a| |b|))

theorem isclose_zero_iff (x : ℝ) : isclose x 0 ↔ x = 0 := by
  unfold isclose
  constructor
  · intro h
    rw [sub_zero, abs_zero, max_eq_left (abs_nonneg x)] at h
    have h0 : 0 ≤ |x| := abs_nonneg x
    have : |x| = 0 := by linarith
    exact abs_eq_zero.mp this
  · rintro rfl
    simp

theorem isclose_refl (x : ℝ) : isclose x x := by
  unfold isclose
  simp

theorem not_isclose_one (x : ℝ) (h2 : 0 < x) (h : x < 1 - 1 / 1000000000) :
    ¬ isclose x 1 := by
  unfold isclose
  intro habs
  have hx : |x| = x := abs_of_pos h2
  have hm : max |x| |(1:ℝ)| = 1 := by
    rw [hx, abs_one]
    exact max_eq_right (by linarith)
  rw [hm, mul_one] at habs
  have hs : |x - 1| = 1 - x := by
    rw [abs_of_neg (by linarith)]
    ring
  rw [hs] at habs
  linarith

/-- `doLine610` (lines 935-940): the Hastings normal-ordinate approximation,
computed with the EXACT constants of the source: note the base of the
exponential is the literal 2.7182818, via Python float `**` (rpow). -/
noncomputable def doLine610Y (area : ℝ) : ℝ :=
  let eta := Real.sqrt (Real.log (1 / area ^ 2))
  let abcissa := eta - (2.30753 + 0.27061 * eta) / (1 + 0.99229 * eta + 0.04481 * eta ^ 2)
  0.3989422 * (1 / Real.rpow 2.7182818 (abcissa ^ 2 / 2))

/-- The outputs one item receives from the correlation pass of
processExamSection (lines 819-843) together with doLine570/610/620/630/632/640
/690: the stored per-item values plus the per-item deltas added to the
running sums VAR (line 950), SDI and SBIS (lines 996-997), and the BIS value
passed to the bucket classification doLine630 when that call happens. -/
structure ItemStats where
  Y : ℝ
  FMNCO : ℝ
  FMNIC : ℝ
  BIS : ℝ
  PBIS : ℝ
  T : ℝ
  dVAR : ℝ
  dSDI : ℝ
  dSBIS : ℝ
  bisFor630 : Option ℝ

/-- The per-item correlation dispatch of processExamSection (lines 819-843)
and the doLine* helpers it reaches (lines 929-997).  Inputs are the values the
code reads at that point: FMEAN, SDEV, FITN and the per-item FCOUNT
(= float(ICOUNT)), ITC, ITIC; DIFI = FCOUNT / FITN as at line 773. -/
noncomputable def itemStats (fmean sdev fitn fcount itc itic : ℝ) : ItemStats :=
  let difi := fcount / fitn
  if difi < 0 then
    -- line 820-821: doLine570 only, no doLine690 contribution
    { Y := 0, FMNCO := 0, FMNIC := 0, BIS := 0, PBIS := 0, T := 0,
      dVAR := 0, dSDI := 0, dSBIS := 0, bisFor630 := none }
  else if isclose difi 0 then
    -- lines 822-825
    { Y := 0, FMNCO := 0, FMNIC := fmean, BIS := 0, PBIS := 0, T := 0,
      dVAR := 0, dSDI := 0, dSBIS := 0, bisFor630 := none }
  else if isclose difi 1 then
    -- lines 826-829
    { Y := 0, FMNCO := fmean, FMNIC := 0, BIS := 0, PBIS := 0, T := 0,
      dVAR := 0, dSDI := 0, dSBIS := 0, bisFor630 := none }
  else
    -- lines 830-843 select the normal ordinate, then doLine620
    let Yv :=
      if difi < 0.5 then
        (if difi ≤ 0 then 0 else doLine610Y (1 - difi))
      else if 0.5 < difi then
        (if 1 < difi then 0 else doLine610Y difi)
      else (0.39894 : ℝ)
    -- doLine620 (lines 942-957)
    let fmnco := itc / fcount
    let qcount := fitn - fcount
    let fmnic := itic / qcount
    let q := 1 - difi
    if isclose sdev 0 then
      -- doLine632 (lines 968-973) then doLine630
      { Y := Yv, FMNCO := fmnco, FMNIC := fmnic, BIS := 0, PBIS := 0, T := 0,
        dVAR := difi * q, dSDI := difi, dSBIS := 0, bisFor630 := some 0 }
    else
      let bis := ((fmnco - fmnic) / sdev) * difi * q / Yv
      let pbis := bis * (Yv / Real.sqrt (difi * q))
      let t := pbis * Real.sqrt ((fitn - 2) / (1 - pbis ^ 2))
      { Y := Yv, FMNCO := fmnco, FMNIC := fmnic, BIS := bis, PBIS := pbis, T := t,
        dVAR := difi * q, dSDI := difi, dSBIS := bis, bisFor630 := some bis }

/-- The per-item wiring of the correlation pass: the actual section values fed
into itemStats for question i (lines 819-843 read FMEAN, SDEV, FITN and the
tallies for item i). -/
noncomputable def procItem (sec : ExamSection) (i : ℕ) : ItemStats :=
  itemStats (FMEAN sec) (SDEV sec) (FITN sec) ((ICOUNT sec i : ℝ)) ((ITC sec i : ℝ))
    ((ITIC sec i : ℝ))

/-- The difficulty-bucket classification of lines 774-787: which of the five
passing-range counters (IDO / IDTW / IDTH / IDFO / IDFI, reported as ranges
0-19 / 20-39 / 40-59 / 60-79 / 80-100) the item falls into; none models the
out-of-range message branch. -/
noncomputable def passingBucket (difi : ℝ) : Option (Fin 5) :=
  if difi ≤ 0.19 then some 0
  else if difi ≤ 0.39 then some 1
  else if difi ≤ 0.59 then some 2
  else if difi ≤ 0.79 then some 3
  else if difi ≤ 1 then some 4
  else none

/-- The counter increment performed by lines 774-787 on the vector of five
passing-range counters. -/
noncomputable def passingBucketUpdate (c : Fin 5 → ℕ) (difi : ℝ) : Fin 5 → ℕ :=
  match passingBucket difi with
  | some b => Function.update c b (c b + 1)
  | none => c

/-- `doLine630` and `doLine640` (lines 959-992): the biserial-correlation
bucket classification, incrementing exactly one of the six counters
IDVP / IDP / IDG / IDVG / IDVVG / IDEX (indices 0-5; reported as the ranges
up to 0.10 / 0.11-0.30 / 0.31-0.50 / 0.51-0.70 / 0.71-0.90 / above 0.91):
note the comparison constants in the code are 0.11 / 0.31 / 0.51 / 0.71 /
0.91. -/
noncomputable def doLine630640 (c : Fin 6 → ℕ) (bis : ℝ) : Fin 6 → ℕ :=
  if 0.11 < bis then
    if bis ≤ 0.31 then Function.update c 1 (c 1 + 1)
    else if bis ≤ 0.51 then Function.update c 2 (c 2 + 1)
    else if bis ≤ 0.71 then Function.update c 3 (c 3 + 1)
    else if bis ≤ 0.91 then Function.update c 4 (c 4 + 1)
    else Function.update c 5 (c 5 + 1)
  else Function.update c 0 (c 0 + 1)

/-- C3 as amended: the biserial classification of doLine630/doLine640 uses the
breakpoints 0.11, 0.31, 0.51, 0.71, 0.91 (not 0.10, 0.30, 0.50, 0.70, 0.90):
the first counter receives items with BIS at most 0.11, the second those with
0.11 < BIS at most 0.31, and so on, the sixth those above 0.91; and for every
BIS exactly one of the six counters is incremented. -/
theorem doLine630640_buckets (c : Fin 6 → ℕ) (bis : ℝ) :
    (bis ≤ 0.11 → doLine630640 c bis = Function.update c 0 (c 0 + 1))
    ∧ (0.11 < bis → bis ≤ 0.31 → doLine630640 c bis = Function.update c 1 (c 1 + 1))
    ∧ (0.31 < bis → bis ≤ 0.51 → doLine630640 c bis = Function.update c 2 (c 2 + 1))
    ∧ (0.51 < bis → bis ≤ 0.71 → doLine630640 c bis = Function.update c 3 (c 3 + 1))
    ∧ (0.71 < bis → bis ≤ 0.91 → doLine630640 c bis = Function.update c 4 (c 4 + 1))
    ∧ (0.91 < bis → doLine630640 c bis = Function.update c 5 (c 5 + 1))
    ∧ (∃ b0 : Fin 6, doLine630640 c bis b0 = c b0 + 1 ∧
        ∀ b, b ≠ b0 → doLine630640 c bis b = c b) := by
  have hupd : ∀ b0 : Fin 6, ∃ b1 : Fin 6, Function.update c b0 (c b0 + 1) b1 = c b1 + 1 ∧
      ∀ b, b ≠ b1 → Function.update c b0 (c b0 + 1) b = c b :=
    fun b0 => ⟨b0, Function.update_same b0 (c b0 + 1) c,
      fun b hb => Function.update_noteq hb (c b0 + 1) c⟩
  refine ⟨?_, ?_, ?_, ?_, ?_, ?_, ?_⟩
  · intro h
    unfold doLine630640
    rw [if_neg (not_lt.mpr h)]
  · intro h1 h2
    unfold doLine630640
    rw [if_pos h1, if_pos h2]
  · intro h1 h2
    unfold doLine630640
    rw [if_pos (by linarith), if_neg (not_le.mpr h1), if_pos h2]
  · intro h1 h2
    unfold doLine630640
    rw [if_pos (by linarith), if_neg (by linarith), if_neg (not_le.mpr h1), if_pos h2]
  · intro h1 h2
    unfold doLine630640
    rw [if_pos (by linarith), if_neg (by linarith), if_neg (by linarith),
      if_neg (not_le.mpr h1), if_pos h2]
  · intro h1
    unfold doLine630640
    rw [if_pos (by linarith), if_neg (by linarith), if_neg (by linarith),
      if_neg (by linarith), if_neg (not_le.mpr h1)]
  · unfold doLine630640
    split_ifs <;> exact hupd _

/-- Counterexample for C3 as stated: an item with BIS = 0.105 is above the
claimed first-bucket bound 0.10, so the claim puts it in the second bucket,
but the code (which compares against 0.11) increments the FIRST counter. -/
theorem doLine630640_counterexample :
    doLine630640 (fun _ => 0) (0.105 : ℝ) = Function.update (fun _ => 0) 0 1
    ∧ ¬ ((0.105 : ℝ) ≤ 0.10) := by
  constructor
  · unfold doLine630640
    rw [if_neg (by norm_num)]
  · norm_num

/-- Witness for the amended C3 at BIS = 0.2: strictly between 0.11 and 0.31,
so the second counter is the one incremented. -/
theorem doLine630640_buckets_witness :
    (0.11 : ℝ) < 0.2 ∧ (0.2 : ℝ) ≤ 0.31 ∧
    doLine630640 (fun _ => 0) (0.2 : ℝ) = Function.update (fun _ => 0) 1 1 := by
  refine ⟨by norm_num, by norm_num, ?_⟩
  have h := (doLine630640_buckets (fun _ => 0) (0.2 : ℝ)).2.1 (by norm_num) (by norm_num)
  simpa using h

theorem itemStats_difi_one (fmean sdev fitn fcount itc itic : ℝ)
    (h : fcount / fitn = 1) :
    (itemStats fmean sdev fitn fcount itc itic).FMNCO = fmean
    ∧ (itemStats fmean sdev fitn fcount itc itic).FMNIC = 0
    ∧ (itemStats fmean sdev fitn fcount itc itic).BIS = 0
    ∧ (itemStats fmean sdev fitn fcount itc itic).PBIS = 0
    ∧ (itemStats fmean sdev fitn fcount itc itic).T = 0 := by
  unfold itemStats
  rw [h, if_neg (by norm_num), if_neg (by rw [isclose_zero_iff]; norm_num),
    if_pos (isclose_refl 1)]
  exact ⟨rfl, rfl, rfl, rfl, rfl⟩

theorem itemStats_difi_zero (fmean sdev fitn fcount itc itic : ℝ)
    (h : fcount / fitn = 0) :
    (itemStats fmean sdev fitn fcount itc itic).FMNCO = 0
    ∧ (itemStats fmean sdev fitn fcount itc itic).FMNIC = fmean
    ∧ (itemStats fmean sdev fitn fcount itc itic).BIS = 0
    ∧ (itemStats fmean sdev fitn fcount itc itic).PBIS = 0
    ∧ (itemStats fmean sdev fitn fcount itc itic).T = 0 := by
  unfold itemStats
  rw [h, if_neg (by norm_num), if_pos ((isclose_zero_iff 0).mpr rfl)]
  exact ⟨rfl, rfl, rfl, rfl, rfl⟩

/-- C4: in a section of at least two students whose responses are all in range
(so that the tally loop completes), an item answered correctly by every
student gets DIFI = 1, the correct-responders mean FMNCO substituted by the
test mean and FMNIC = 0, zero BIS / PBIS / T, and the 80-100 passing bucket;
an item answered correctly by no student gets DIFI = 0, FMNIC substituted by
the test mean and FMNCO = 0, zero BIS / PBIS / T, and the 0-19 bucket. -/
theorem allRightAllWrong_item (sec : ExamSection) (i : ℕ)
    (hN : 2 ≤ sectionN sec)
    (hi : i < sec.answerKey.length)
    (hpar : ∀ g ∈ sec.groups, g.scores.length = g.answers.length)
    (hrange : ∀ st ∈ studentsOf sec, ∀ j, j < sec.answerKey.length →
      0 ≤ st.2.getD j 0 ∧ st.2.getD j 0 ≤ sec.responsesPerQuestion) :
    ((∀ st ∈ studentsOf sec, st.2.getD i 0 = sec.answerKey.getD i 0) →
      DIFI sec i = 1 ∧ (procItem sec i).FMNCO = FMEAN sec ∧
      (procItem sec i).FMNIC = 0 ∧ (procItem sec i).BIS = 0 ∧
      (procItem sec i).PBIS = 0 ∧ (procItem sec i).T = 0 ∧
      passingBucket (DIFI sec i) = some 4)
    ∧ ((∀ st ∈ studentsOf sec, st.2.getD i 0 ≠ sec.answerKey.getD i 0) →
      DIFI sec i = 0 ∧ (procItem sec i).FMNCO = 0 ∧
      (procItem sec i).FMNIC = FMEAN sec ∧ (procItem sec i).BIS = 0 ∧
      (procItem sec i).PBIS = 0 ∧ (procItem sec i).T = 0 ∧
      passingBucket (DIFI sec i) = some 0) := by
  have hlen : (studentsOf sec).length = sectionN sec := by
    unfold studentsOf sectionN
    rw [List.length_flatMap]
    congr 1
    apply List.map_congr_left
    intro g hg
    simp only [Function.comp_apply]
    rw [List.length_zip, hpar g hg, Nat.min_self]
  have hNpos : (0 : ℝ) < (sectionN sec : ℝ) := by
    have : 0 < sectionN sec := by omega
    exact_mod_cast this
  constructor
  · intro hall
    have hcount : ICOUNT sec i = sectionN sec := by
      unfold ICOUNT
      rw [← hlen]
      apply List.countP_eq_length.mpr
      intro st hst
      simpa using hall st hst
    have hdifi : DIFI sec i = 1 := by
      unfold DIFI FITN
      rw [hcount]
      exact div_self (ne_of_gt hNpos)
    have hdifi2 : ((ICOUNT sec i : ℝ)) / FITN sec = 1 := hdifi
    obtain ⟨e1, e2, e3, e4, e5⟩ := itemStats_difi_one (FMEAN sec) (SDEV sec) (FITN sec)
      ((ICOUNT sec i : ℝ)) ((ITC sec i : ℝ)) ((ITIC sec i : ℝ)) hdifi2
    refine ⟨hdifi, e1, e2, e3, e4, e5, ?_⟩
    rw [hdifi]
    unfold passingBucket
    rw [if_neg (by norm_num), if_neg (by norm_num), if_neg (by norm_num),
      if_neg (by norm_num), if_pos (by norm_num)]
  · intro hnone
    have hcount : ICOUNT sec i = 0 := by
      unfold ICOUNT
      apply List.countP_eq_zero.mpr
      intro st hst
      simpa using hnone st hst
    have hdifi : DIFI sec i = 0 := by
      unfold DIFI FITN
      rw [hcount]
      simp
    have hdifi2 : ((ICOUNT sec i : ℝ)) / FITN sec = 0 := hdifi
    obtain ⟨e1, e2, e3, e4, e5⟩ := itemStats_difi_zero (FMEAN sec) (SDEV sec) (FITN sec)
      ((ICOUNT sec i : ℝ)) ((ITC sec i : ℝ)) ((ITIC sec i : ℝ)) hdifi2
    refine ⟨hdifi, e1, e2, e3, e4, e5, ?_⟩
    rw [hdifi]
    unfold passingBucket
    rw [if_pos (by norm_num)]

/-- A two-student section whose item 0 (key 1) is answered correctly by every
student: used by the C4 witness. -/
def sectionAllRight : ExamSection :=
  { responsesPerQuestion := 2, answerKey := [1, 2],
    groups := [⟨"g1", [2, 1], [[1, 2], [1, 1]]⟩], options := [] }

/-- A two-student section whose item 0 (key 2) is answered correctly by no
student: used by the C4 witness. -/
def sectionAllWrong : ExamSection :=
  { responsesPerQuestion := 2, answerKey := [2, 2],
    groups := [⟨"g1", [0, 1], [[1, 2], [1, 1]]⟩], options := [] }

/-- Witness for C4 on two concrete two-student sections: one where item 0 is
answered correctly by both students and one where it is answered correctly by
neither. -/
theorem allRightAllWrong_item_witness :
    (DIFI sectionAllRight 0 = 1
      ∧ (procItem sectionAllRight 0).BIS = 0
      ∧ passingBucket (DIFI sectionAllRight 0) = some 4)
    ∧ (DIFI sectionAllWrong 0 = 0
      ∧ passingBucket (DIFI sectionAllWrong 0) = some 0) := by
  have h1 := (allRightAllWrong_item sectionAllRight 0
    (by decide) (by decide) (by decide) (by decide)).1 (by decide)
  have h2 := (allRightAllWrong_item sectionAllWrong 0
    (by decide) (by decide) (by decide) (by decide)).2 (by decide)
  exact ⟨⟨h1.1, h1.2.2.2.1, h1.2.2.2.2.2.2⟩, ⟨h2.1, h2.2.2.2.2.2.2⟩⟩

theorem itemStats_Y (fmean sdev fitn fcount itc itic : ℝ)
    (h0 : ¬ (fcount / fitn < 0)) (hz : ¬ isclose (fcount / fitn) 0)
    (ho : ¬ isclose (fcount / fitn) 1) :
    (itemStats fmean sdev fitn fcount itc itic).Y =
      (if fcount / fitn < 0.5 then
        (if fcount / fitn ≤ 0 then 0 else doLine610Y (1 - fcount / fitn))
      else if 0.5 < fcount / fitn then
        (if 1 < fcount / fitn then 0 else doLine610Y (fcount / fitn))
      else (0.39894 : ℝ)) := by
  unfold itemStats
  rw [if_neg h0, if_neg hz, if_neg ho]
  by_cases hsd : isclose sdev 0
  · rw [if_pos hsd]
  · rw [if_neg hsd]

/-- C5 as amended: for an item with 0 < DIFI < 1 that is not within the
isclose tolerance of 1 (DIFI < 1 - 1e-9 suffices), the stored normal ordinate
Y is 0.3989422 times the reciprocal of the literal base 2.7182818 (NOT the
exact Euler number e) raised to abscissa^2 / 2, with
abscissa = eta - (2.30753 + 0.27061 eta) / (1 + 0.99229 eta + 0.04481 eta^2),
eta = sqrt(ln(1/area^2)), area = 1 - DIFI when DIFI < 0.5 and DIFI otherwise;
when DIFI equals 0.5 exactly, Y = 0.39894. -/
theorem hastings_area_dispatch (fmean sdev fitn fcount itc itic : ℝ)
    (h0 : 0 < fcount / fitn) (h1 : fcount / fitn < 1)
    (hcap : fcount / fitn < 1 - 1 / 1000000000) :
    ((fcount / fitn ≠ 1 / 2) →
      (itemStats fmean sdev fitn fcount itc itic).Y =
        (let area := if fcount / fitn < 0.5 then 1 - fcount / fitn else fcount / fitn
         let eta := Real.sqrt (Real.log (1 / area ^ 2))
         let abcissa := eta -
           (2.30753 + 0.27061 * eta) / (1 + 0.99229 * eta + 0.04481 * eta ^ 2)
         0.3989422 * (1 / Real.rpow 2.7182818 (abcissa ^ 2 / 2))))
    ∧ ((fcount / fitn = 1 / 2) →
      (itemStats fmean sdev fitn fcount itc itic).Y = 0.39894) := by
  have hz : ¬ isclose (fcount / fitn) 0 := by
    rw [isclose_zero_iff]
    exact ne_of_gt h0
  have ho : ¬ isclose (fcount / fitn) 1 := not_isclose_one _ h0 hcap
  have hY := itemStats_Y fmean sdev fitn fcount itc itic (not_lt.mpr h0.le) hz ho
  constructor
  · intro hhalf
    rw [hY]
    by_cases hlt : fcount / fitn < 0.5
    · rw [if_pos hlt, if_pos hlt, if_neg (not_le.mpr h0)]
      unfold doLine610Y
      rfl
    · have hgt : 0.5 < fcount / fitn := by
        rcases lt_or_eq_of_le (not_lt.mp hlt) with h | h
        · exact h
        · exact absurd h.symm (by rw [show (0.5 : ℝ) = 1 / 2 by norm_num]; exact hhalf)
      rw [if_neg hlt, if_neg hlt, if_pos hgt, if_neg (not_lt.mpr h1.le)]
      unfold doLine610Y
      rfl
  · intro hhalf
    rw [hY, if_neg (by rw [hhalf]; norm_num), if_neg (by rw [hhalf]; norm_num)]

/-- Counterexample for C5 as stated: at DIFI = 3/4 (area = 3/4) the code
computes Y with the literal base 2.7182818, which is strictly SMALLER than
Euler's number e, so the computed Y is strictly larger than - hence not equal
to - the value 0.3989422 * e^(-abscissa^2/2) the claim asserts. -/
theorem hastings_base_counterexample :
    ¬ ((itemStats 0 1 4 3 0 0).Y =
      0.3989422 * Real.exp (-((Real.sqrt (Real.log (1 / ((3:ℝ)/4) ^ 2)) -
        (2.30753 + 0.27061 * Real.sqrt (Real.log (1 / ((3:ℝ)/4) ^ 2))) /
        (1 + 0.99229 * Real.sqrt (Real.log (1 / ((3:ℝ)/4) ^ 2)) +
         0.04481 * Real.sqrt (Real.log (1 / ((3:ℝ)/4) ^ 2)) ^ 2)) ^ 2 / 2))) := by
  have hz : ¬ isclose ((3:ℝ) / 4) 0 := by
    rw [isclose_zero_iff]; norm_num
  have ho : ¬ isclose ((3:ℝ) / 4) 1 := not_isclose_one _ (by norm_num) (by norm_num)
  have hY : (itemStats 0 1 4 3 0 0).Y = doLine610Y ((3:ℝ) / 4) := by
    rw [itemStats_Y 0 1 4 3 0 0 (by norm_num) hz ho]
    rw [if_neg (by norm_num), if_pos (by norm_num), if_neg (by norm_num)]
  rw [hY]
  simp only [doLine610Y]
  set η := Real.sqrt (Real.log (1 / ((3:ℝ)/4) ^ 2)) with hηdef
  have hη0 : 0 ≤ η := hηdef ▸ Real.sqrt_nonneg _
  have hη1 : η ≤ 1 := by
    rw [hηdef, Real.sqrt_le_one]
    have h169 : (1 : ℝ) / ((3:ℝ)/4) ^ 2 = 16 / 9 := by norm_num
    rw [h169]
    have := Real.log_le_sub_one_of_pos (by norm_num : (0:ℝ) < 16 / 9)
    linarith
  clear_value η
  set A := η - (2.30753 + 0.27061 * η) / (1 + 0.99229 * η + 0.04481 * η ^ 2) with hAdef
  have hη2 : η ^ 2 ≤ 1 := pow_le_one₀ hη0 hη1
  have hη3 : η ^ 3 ≤ 1 := pow_le_one₀ hη0 hη1
  have hden : 0 < 1 + 0.99229 * η + 0.04481 * η ^ 2 := by nlinarith [sq_nonneg η]
  have hAneg : A < 0 := by
    rw [hAdef, sub_neg, lt_div_iff₀ hden]
    nlinarith [hη0, hη1, hη2, hη3]
  clear_value A
  have hA2 : 0 < A ^ 2 := by
    rw [pow_two]
    exact mul_pos_of_neg_of_neg hAneg hAneg
  have ht : 0 < A ^ 2 / 2 := half_pos hA2
  have hbase : Real.rpow 2.7182818 (A ^ 2 / 2) =
      Real.exp (Real.log 2.7182818 * (A ^ 2 / 2)) :=
    Real.rpow_def_of_pos (by norm_num) _
  have hlogb : Real.log 2.7182818 < 1 := by
    apply (Real.log_lt_iff_lt_exp (by norm_num)).mpr
    have := Real.exp_one_gt_d9
    linarith
  have hmul : Real.log 2.7182818 * (A ^ 2 / 2) < A ^ 2 / 2 :=
    (mul_lt_iff_lt_one_left ht).mpr hlogb
  have hexp : Real.exp (Real.log 2.7182818 * (A ^ 2 / 2)) < Real.exp (A ^ 2 / 2) :=
    Real.exp_lt_exp.mpr hmul
  have hrpos : 0 < Real.rpow 2.7182818 (A ^ 2 / 2) := by
    rw [hbase]
    exact Real.exp_pos _
  have hinv : 1 / Real.exp (A ^ 2 / 2) < 1 / Real.rpow 2.7182818 (A ^ 2 / 2) := by
    apply one_div_lt_one_div_of_lt hrpos
    rw [hbase]
    exact hexp
  intro heq
  rw [Real.exp_neg, ← one_div] at heq
  nlinarith [hinv, heq]

/-- Witness for the amended C5 at DIFI = 3/4 (both hypothesis sides shown:
the area is DIFI itself since DIFI is at least 0.5, and DIFI differs from
0.5). -/
theorem hastings_area_dispatch_witness :
    (0 : ℝ) < 3 / 4 ∧ (3 : ℝ) / 4 < 1 ∧ (3 : ℝ) / 4 ≠ 1 / 2 ∧
    (itemStats 0 1 4 3 0 0).Y =
      (let area := if (3 : ℝ) / 4 < 0.5 then 1 - (3 : ℝ) / 4 else (3 : ℝ) / 4
       let eta := Real.sqrt (Real.log (1 / area ^ 2))
       let abcissa := eta -
         (2.30753 + 0.27061 * eta) / (1 + 0.99229 * eta + 0.04481 * eta ^ 2)
       0.3989422 * (1 / Real.rpow 2.7182818 (abcissa ^ 2 / 2))) := by
  refine ⟨by norm_num, by norm_num, by norm_num, ?_⟩
  exact (hastings_area_dispatch 0 1 4 3 0 0 (by norm_num) (by norm_num)
    (by norm_num)).1 (by norm_num)

/-! ## The summary-statistics divisions of processExamSection (lines 802-807) -/

/-- Python float division: raises ZeroDivisionError on a zero denominator
(unlike IEEE arithmetic). -/
noncomputable def pyDivR (a b : ℝ) : Except String ℝ :=
  if b = 0 then .error "ZeroDivisionError: float division by zero" else .ok (a / b)

/-- Lines 802-807 of processExamSection with each division checked the way the
Python runtime checks it: FMEAN = FSUM / FITN, FVAR with denominator
FITN * (FITN - 1), SER = 1 / sqrt(FITN - 1), SDEV = sqrt(FVAR). -/
noncomputable def sectionScoreStats (sec : ExamSection) : Except String (ℝ × ℝ × ℝ × ℝ) := do
  let fmean ← pyDivR ((ISUM sec : ℝ)) (FITN sec)
  let fvar ← pyDivR (FITN sec * (ISUMSQ sec : ℝ) - (ISUM sec : ℝ) ^ 2)
    (FITN sec * (FITN sec - 1))
  let ser ← pyDivR 1 (Real.sqrt (FITN sec - 1))
  pure (fmean, fvar, ser, Real.sqrt fvar)

/-- C10: the per-section summary statistics require at least two students.
With exactly one student the variance computation divides by
FITN * (FITN - 1) = 0 and raises (and the standard-error division
1 / sqrt(FITN - 1) would equally divide by zero); with two or more students
every denominator is nonzero and the computation succeeds. -/
theorem sectionScoreStats_requires_two_students (sec : ExamSection) :
    (sectionN sec = 1 →
      sectionScoreStats sec = .error "ZeroDivisionError: float division by zero"
      ∧ pyDivR 1 (Real.sqrt ((1 : ℝ) - 1)) =
          .error "ZeroDivisionError: float division by zero")
    ∧ (2 ≤ sectionN sec → ∃ out, sectionScoreStats sec = .ok out) := by
  constructor
  · intro h1
    have hf : FITN sec = 1 := by
      unfold FITN
      rw [h1]
      norm_num
    constructor
    · unfold sectionScoreStats pyDivR
      rw [hf]
      rw [if_neg (one_ne_zero), if_pos (by norm_num : (1:ℝ) * ((1:ℝ) - 1) = 0)]
      rfl
    · unfold pyDivR
      rw [if_pos (by rw [show ((1:ℝ) - 1) = 0 by norm_num, Real.sqrt_zero])]
  · intro h2
    have hf2 : (2 : ℝ) ≤ FITN sec := by
      unfold FITN
      exact_mod_cast h2
    have hne1 : FITN sec ≠ 0 := by linarith
    have hne2 : FITN sec * (FITN sec - 1) ≠ 0 :=
      ne_of_gt (mul_pos (by linarith) (by linarith))
    have hne3 : Real.sqrt (FITN sec - 1) ≠ 0 :=
      ne_of_gt (Real.sqrt_pos.mpr (by linarith))
    unfold sectionScoreStats pyDivR
    rw [if_neg hne1, if_neg hne2, if_neg hne3]
    exact ⟨_, rfl⟩

/-- A one-student section (witness input for C10). -/
def sectionOneStudent : ExamSection :=
  { responsesPerQuestion := 2, answerKey := [1, 2],
    groups := [⟨"g1", [2], [[1, 2]]⟩], options := [] }

/-- Witness for C10: the one-student section raises the division error, and
the two-student section sectionAllRight succeeds. -/
theorem sectionScoreStats_requires_two_students_witness :
    (sectionScoreStats sectionOneStudent =
      .error "ZeroDivisionError: float division by zero")
    ∧ (∃ out, sectionScoreStats sectionAllRight = .ok out) := by
  have h1 := (sectionScoreStats_requires_two_students sectionOneStudent).1 (by decide)
  have h2 := (sectionScoreStats_requires_two_students sectionAllRight).2 (by decide)
  exact ⟨h1.1, h2⟩

/-! ## Cross-section accumulation: StatData state and processExam
(itemal.py lines 641-681, 684-858, 999-1057)

processExamSection both OVERWRITES per-section fields of the StatData object
(FMEAN, FVAR, SDEV at lines 804-807, KTN at line 852) and ACCUMULATES into
exam-level fields (GITEMN at 697, the passing counters at 774-783, VAR at 950,
SDI and SBIS at 996-997 via doLine690, the biserial counters at 961-991, and
CNTKEY / PROSUM / CNTCHO at 846-851, NNXYZ at 845).  processExam then builds
the exam summary from the final state (lines 999-1057).  The state below
carries exactly the fields the exam summary reads. -/

@[ext]
structure StatState where
  NNXYZ : ℕ
  GITEMN : ℝ
  VAR : ℝ
  SBIS : ℝ
  SDI : ℝ
  idPass : Fin 5 → ℕ
  idBis : Fin 6 → ℕ
  CNTKEY : ℤ → ℝ
  PROSUM : ℤ → ℝ
  CNTCHO : ℤ → ℝ
  FMEAN : ℝ
  FVAR : ℝ
  SDEV : ℝ
  KTN : ℕ

/-- The zero state of `StatData.__init__` (lines 641-681). -/
noncomputable def initState : StatState :=
  { NNXYZ := 0, GITEMN := 0, VAR := 0, SBIS := 0, SDI := 0,
    idPass := fun _ => 0, idBis := fun _ => 0,
    CNTKEY := fun _ => 0, PROSUM := fun _ => 0, CNTCHO := fun _ => 0,
    FMEAN := 0, FVAR := 0, SDEV := 0, KTN := 0 }

/-- One iteration of the difficulty loop (lines 765-787) as it affects the
exam-level state: the passing-range counter for DIFI[i] is incremented (the
TOT / FKSUM / CMEAN / PROP stores it also writes are per-section values that
the exam summary never reads and are represented by the derived functions
PROP and JTOT above). -/
noncomputable def difiStep (sec : ExamSection) (st : StatState) (i : ℕ) : StatState :=
  { st with idPass := passingBucketUpdate st.idPass (DIFI sec i) }

/-- One iteration of the correlation loop (lines 819-843 with the doLine
helpers): VAR grows by DIFI * Q on the doLine620 path (line 950), doLine630
classifies BIS into a bucket counter when reached, and doLine690 adds DIFI to
SDI and BIS to SBIS (lines 996-997). -/
noncomputable def corrStep (sec : ExamSection) (st : StatState) (i : ℕ) : StatState :=
  { st with
    VAR := st.VAR + (procItem sec i).dVAR,
    SDI := st.SDI + (procItem sec i).dSDI,
    SBIS := st.SBIS + (procItem sec i).dSBIS,
    idBis :=
      match (procItem sec i).bisFor630 with
      | some b => doLine630640 st.idBis b
      | none => st.idBis }

/-- One iteration of the answer-key counter loop (lines 846-851), written as
pointwise additions: CNTKEY[KEY] += 1 and PROSUM[KEY] += PROP[i, KEY+1] touch
the single index KEY = answerKey[i-1], and the inner j-loop
`for j in range(2, JCHO + 1): CNTCHO[[j - 1]] += TOT[[i, j]]` adds
TOT[i, k + 1] to CNTCHO[k] exactly for the indices k = 1 .. ICHO. -/
noncomputable def cntStep (sec : ExamSection) (st : StatState) (i : ℕ) : StatState :=
  { st with
    CNTKEY := fun k => st.CNTKEY k + (if k = sec.answerKey.getD i 0 then 1 else 0),
    PROSUM := fun k => st.PROSUM k + (if k = sec.answerKey.getD i 0
      then PROP sec i (sec.answerKey.getD i 0 + 1) else 0),
    CNTCHO := fun k => st.CNTCHO k +
      (if 1 ≤ k ∧ k ≤ sec.responsesPerQuestion then (JTOT sec i (k + 1) : ℝ) else 0) }

/-- The effect of one `processExamSection` call on the exam-level state:
GITEMN grows by the question count (line 697); the difficulty loop runs
(765-787); FMEAN, FVAR, SDEV are OVERWRITTEN with this section's values
(804-807); the correlation loop runs (819-843); NNXYZ grows by the question
count (845); the key-counter loop runs (846-851); KTN is OVERWRITTEN with this
section's student count (852). -/
noncomputable def processExamSectionState (st : StatState) (sec : ExamSection) : StatState :=
  let Q := sec.answerKey.length
  let st1 := { st with GITEMN := st.GITEMN + (Q : ℝ) }
  let st2 := (List.range Q).foldl (fun s i => difiStep sec s i) st1
  let st3 := { st2 with FMEAN := FMEAN sec, FVAR := FVAR sec, SDEV := SDEV sec }
  let st4 := (List.range Q).foldl (fun s i => corrStep sec s i) st3
  let st5 := (List.range Q).foldl (fun s i => cntStep sec s i)
    { st4 with NNXYZ := st4.NNXYZ + Q }
  { st5 with KTN := sectionN sec }

/-- `processExam` (lines 999-1002): the sections are processed strictly in
list order against the shared state. -/
noncomputable def processExamState (secs : List ExamSection) : StatState :=
  secs.foldl processExamSectionState initState

/-- The exam-level statistical summary fields (lines 1005-1056). -/
structure ExamSummary where
  meanDifficulty : ℝ
  meanBiserial : ℝ
  kr20 : ℝ
  scoreMean : ℝ
  scoreVariance : ℝ
  scoreStdDeviation : ℝ
  stdErrOfMeasurement : ℝ
  totalStudents : ℕ
  distributionByPassing : Fin 5 → ℕ
  distributionByBiserial : Fin 6 → ℕ

/-- The summary computation of `processExam` (lines 1005-1056): FMEDI and
FMEBIS from the accumulated sums; the KR-20 reliability REL from FVAR (the
LAST section's variance) and the accumulated item-variance sum VAR; the score
moments and KTN straight from the (last-section) state fields. -/
noncomputable def examSummary (st : StatState) : ExamSummary :=
  let rel := if isclose st.FVAR 0 then 0
    else (st.GITEMN / (st.GITEMN - 1)) * ((st.FVAR - st.VAR) / st.FVAR)
  { meanDifficulty := st.SDI / st.GITEMN,
    meanBiserial := st.SBIS / st.GITEMN,
    kr20 := rel,
    scoreMean := st.FMEAN,
    scoreVariance := st.FVAR,
    scoreStdDeviation := st.SDEV,
    stdErrOfMeasurement := if isclose st.FVAR 0 then 0 else st.SDEV * Real.sqrt (1 - rel),
    totalStudents := st.KTN,
    distributionByPassing := st.idPass,
    distributionByBiserial := st.idBis }

/-- The net SDI contribution of one section. -/
noncomputable def sectionSDI (sec : ExamSection) : ℝ :=
  ((List.range sec.answerKey.length).map (fun i => (procItem sec i).dSDI)).sum

/-- The net SBIS contribution of one section. -/
noncomputable def sectionSBIS (sec : ExamSection) : ℝ :=
  ((List.range sec.answerKey.length).map (fun i => (procItem sec i).dSBIS)).sum

/-- The net item-variance (VAR) contribution of one section. -/
noncomputable def sectionVAR (sec : ExamSection) : ℝ :=
  ((List.range sec.answerKey.length).map (fun i => (procItem sec i).dVAR)).sum

/-- The per-item passing-counter contribution. -/
noncomputable def itemPassContrib (sec : ExamSection) (i : ℕ) : Fin 5 → ℕ :=
  passingBucketUpdate (fun _ => 0) (DIFI sec i)

/-- The net passing-counter contribution of one section. -/
noncomputable def sectionIdPass (sec : ExamSection) (b : Fin 5) : ℕ :=
  ((List.range sec.answerKey.length).map (fun i => itemPassContrib sec i b)).sum

/-- The per-item biserial-counter contribution. -/
noncomputable def itemBisContrib (sec : ExamSection) (i : ℕ) : Fin 6 → ℕ :=
  fun b =>
    match (procItem sec i).bisFor630 with
    | some bis => doLine630640 (fun _ => 0) bis b
    | none => 0

/-- The net biserial-counter contribution of one section. -/
noncomputable def sectionIdBis (sec : ExamSection) (b : Fin 6) : ℕ :=
  ((List.range sec.answerKey.length).map (fun i => itemBisContrib sec i b)).sum

/-- The net CNTKEY contribution of one section. -/
noncomputable def sectionCNTKEY (sec : ExamSection) (k : ℤ) : ℝ :=
  ((List.range sec.answerKey.length).map
    (fun i => if k = sec.answerKey.getD i 0 then (1 : ℝ) else 0)).sum

/-- The net PROSUM contribution of one section. -/
noncomputable def sectionPROSUM (sec : ExamSection) (k : ℤ) : ℝ :=
  ((List.range sec.answerKey.length).map
    (fun i => if k = sec.answerKey.getD i 0
      then PROP sec i (sec.answerKey.getD i 0 + 1) else 0)).sum

/-- The net CNTCHO contribution of one section. -/
noncomputable def sectionCNTCHO (sec : ExamSection) (k : ℤ) : ℝ :=
  ((List.range sec.answerKey.length).map
    (fun i => if 1 ≤ k ∧ k ≤ sec.responsesPerQuestion
      then (JTOT sec i (k + 1) : ℝ) else 0)).sum

theorem passingBucketUpdate_pointwise (c : Fin 5 → ℕ) (difi : ℝ) (b : Fin 5) :
    passingBucketUpdate c difi b = c b + passingBucketUpdate (fun _ => 0) difi b := by
  unfold passingBucketUpdate
  cases passingBucket difi with
  | none => simp
  | some j =>
    rcases eq_or_ne b j with rfl | hb
    · simp
    · simp [Function.update_noteq hb]

theorem update_succ_pointwise {n : ℕ} (c : Fin n → ℕ) (j b : Fin n) :
    Function.update c j (c j + 1) b =
      c b + Function.update (fun _ => (0 : ℕ)) j ((fun _ => (0 : ℕ)) j + 1) b := by
  rcases eq_or_ne b j with rfl | hb
  · simp
  · simp [Function.update_noteq hb]

theorem doLine630640_pointwise (c : Fin 6 → ℕ) (bis : ℝ) (b : Fin 6) :
    doLine630640 c bis b = c b + doLine630640 (fun _ => 0) bis b := by
  unfold doLine630640
  split_ifs <;> exact update_succ_pointwise c _ b

theorem foldl_difiStep (sec : ExamSection) :
    ∀ (L : List ℕ) (st : StatState),
      L.foldl (fun s i => difiStep sec s i) st =
        { st with idPass := fun b =>
            st.idPass b + ((L.map (fun i => itemPassContrib sec i b)).sum) } := by
  intro L
  induction L with
  | nil =>
    intro st
    ext <;> simp
  | cons i L ih =>
    intro st
    rw [List.foldl_cons, ih]
    unfold difiStep
    ext <;> try rfl
    rename_i b
    dsimp only
    rw [passingBucketUpdate_pointwise]
    simp [itemPassContrib, add_assoc]

theorem foldl_corrStep (sec : ExamSection) :
    ∀ (L : List ℕ) (st : StatState),
      L.foldl (fun s i => corrStep sec s i) st =
        { st with
          VAR := st.VAR + (L.map (fun i => (procItem sec i).dVAR)).sum,
          SDI := st.SDI + (L.map (fun i => (procItem sec i).dSDI)).sum,
          SBIS := st.SBIS + (L.map (fun i => (procItem sec i).dSBIS)).sum,
          idBis := fun b => st.idBis b + (L.map (fun i => itemBisContrib sec i b)).sum } := by
  intro L
  induction L with
  | nil =>
    intro st
    ext <;> simp
  | cons i L ih =>
    intro st
    rw [List.foldl_cons, ih]
    unfold corrStep
    ext <;> try rfl
    · simp [List.map_cons, List.sum_cons, add_assoc]
    · simp [List.map_cons, List.sum_cons, add_assoc]
    · simp [List.map_cons, List.sum_cons, add_assoc]
    · rename_i b
      dsimp only
      simp only [List.map_cons, List.sum_cons]
      rw [← add_assoc]
      congr 1
      unfold itemBisContrib
      cases (procItem sec i).bisFor630 with
      | none => simp
      | some bis => exact doLine630640_pointwise st.idBis bis b

theorem foldl_cntStep (sec : ExamSection) :
    ∀ (L : List ℕ) (st : StatState),
      L.foldl (fun s i => cntStep sec s i) st =
        { st with
          CNTKEY := fun k => st.CNTKEY k +
            (L.map (fun i => if k = sec.answerKey.getD i 0 then (1 : ℝ) else 0)).sum,
          PROSUM := fun k => st.PROSUM k +
            (L.map (fun i => if k = sec.answerKey.getD i 0
              then PROP sec i (sec.answerKey.getD i 0 + 1) else 0)).sum,
          CNTCHO := fun k => st.CNTCHO k +
            (L.map (fun i => if 1 ≤ k ∧ k ≤ sec.responsesPerQuestion
              then (JTOT sec i (k + 1) : ℝ) else 0)).sum } := by
  intro L
  induction L with
  | nil =>
    intro st
    ext <;> simp
  | cons i L ih =>
    intro st
    rw [List.foldl_cons, ih]
    unfold cntStep
    ext <;> try rfl
    all_goals
      dsimp only
      simp only [List.map_cons, List.sum_cons]
      rw [add_assoc]

/-- The net effect of one processExamSection call on the exam-level state:
FMEAN / FVAR / SDEV / KTN are overwritten with the section's own values, every
other field accumulates the section's contribution. -/
theorem processExamSectionState_eq (st : StatState) (sec : ExamSection) :
    processExamSectionState st sec =
      { NNXYZ := st.NNXYZ + sec.answerKey.length,
        GITEMN := st.GITEMN + (sec.answerKey.length : ℝ),
        VAR := st.VAR + sectionVAR sec,
        SBIS := st.SBIS + sectionSBIS sec,
        SDI := st.SDI + sectionSDI sec,
        idPass := fun b => st.idPass b + sectionIdPass sec b,
        idBis := fun b => st.idBis b + sectionIdBis sec b,
        CNTKEY := fun k => st.CNTKEY k + sectionCNTKEY sec k,
        PROSUM := fun k => st.PROSUM k + sectionPROSUM sec k,
        CNTCHO := fun k => st.CNTCHO k + sectionCNTCHO sec k,
        FMEAN := FMEAN sec, FVAR := FVAR sec, SDEV := SDEV sec,
        KTN := sectionN sec } := by
  simp only [processExamSectionState]
  rw [foldl_difiStep, foldl_corrStep, foldl_cntStep]
  ext <;> rfl

theorem processExamState_append (ss : List ExamSection) (s : ExamSection) :
    processExamState (ss ++ [s]) =
      processExamSectionState (processExamState ss) s := by
  unfold processExamState
  rw [List.foldl_append]
  rfl

theorem foldl_sections_acc {M : Type} [AddCommMonoid M] (f : StatState → M)
    (g : ExamSection → M)
    (hstep : ∀ st sec, f (processExamSectionState st sec) = f st + g sec) :
    ∀ (L : List ExamSection) (st : StatState),
      f (L.foldl processExamSectionState st) = f st + (L.map g).sum := by
  intro L
  induction L with
  | nil => intro st; simp
  | cons sec L ih =>
    intro st
    rw [List.foldl_cons, ih, hstep, List.map_cons, List.sum_cons, add_assoc]

/-- C9: for an exam with more than one section, the exam summary's score mean,
score variance, score standard deviation and total-students are the values of
the LAST section only, and the KR-20 reliability divides by that last
section's variance; while SDI (mean difficulty numerator), SBIS (mean
biserial numerator), VAR (item-variance sum), GITEMN, the passing-range and
biserial-range distribution counters and the per-choice counters CNTKEY /
PROSUM / CNTCHO are sums of per-section contributions over ALL sections.  The
well-formedness hypothesis restricts to exams that the Python pass actually
completes on (at least two students, parallel score/answer lists, in-range
responses). -/
theorem examSummary_lastSection (ss : List ExamSection) (s : ExamSection)
    (hne : ss ≠ [])
    (hwf : ∀ t ∈ ss ++ [s], 2 ≤ sectionN t ∧
      (∀ g ∈ t.groups, g.scores.length = g.answers.length) ∧
      (∀ st ∈ studentsOf t, ∀ j, j < t.answerKey.length →
        0 ≤ st.2.getD j 0 ∧ st.2.getD j 0 ≤ t.responsesPerQuestion)) :
    (examSummary (processExamState (ss ++ [s]))).scoreMean = FMEAN s
    ∧ (examSummary (processExamState (ss ++ [s]))).scoreVariance = FVAR s
    ∧ (examSummary (processExamState (ss ++ [s]))).scoreStdDeviation = SDEV s
    ∧ (examSummary (processExamState (ss ++ [s]))).totalStudents = sectionN s
    ∧ (examSummary (processExamState (ss ++ [s]))).kr20 =
        (if isclose (FVAR s) 0 then 0
         else ((processExamState (ss ++ [s])).GITEMN /
            ((processExamState (ss ++ [s])).GITEMN - 1)) *
           ((FVAR s - (processExamState (ss ++ [s])).VAR) / FVAR s))
    ∧ (processExamState (ss ++ [s])).SDI = ((ss ++ [s]).map sectionSDI).sum
    ∧ (processExamState (ss ++ [s])).SBIS = ((ss ++ [s]).map sectionSBIS).sum
    ∧ (processExamState (ss ++ [s])).VAR = ((ss ++ [s]).map sectionVAR).sum
    ∧ (processExamState (ss ++ [s])).GITEMN =
        ((ss ++ [s]).map (fun t => (t.answerKey.length : ℝ))).sum
    ∧ (∀ b, (processExamState (ss ++ [s])).idPass b =
        ((ss ++ [s]).map (fun t => sectionIdPass t b)).sum)
    ∧ (∀ b, (processExamState (ss ++ [s])).idBis b =
        ((ss ++ [s]).map (fun t => sectionIdBis t b)).sum)
    ∧ (∀ k, (processExamState (ss ++ [s])).CNTKEY k =
        ((ss ++ [s]).map (fun t => sectionCNTKEY t k)).sum)
    ∧ (∀ k, (processExamState (ss ++ [s])).PROSUM k =
        ((ss ++ [s]).map (fun t => sectionPROSUM t k)).sum)
    ∧ (∀ k, (processExamState (ss ++ [s])).CNTCHO k =
        ((ss ++ [s]).map (fun t => sectionCNTCHO t k)).sum) := by
  have happ := processExamState_append ss s
  have hstep := processExamSectionState_eq (processExamState ss) s
  have hFVAR : (processExamState (ss ++ [s])).FVAR = FVAR s := by
    rw [happ, hstep]
  have hFMEAN : (processExamState (ss ++ [s])).FMEAN = FMEAN s := by
    rw [happ, hstep]
  have hSDEV : (processExamState (ss ++ [s])).SDEV = SDEV s := by
    rw [happ, hstep]
  have hKTN : (processExamState (ss ++ [s])).KTN = sectionN s := by
    rw [happ, hstep]
  refine ⟨?_, ?_, ?_, ?_, ?_, ?_, ?_, ?_, ?_, ?_, ?_, ?_, ?_, ?_⟩
  · show (processExamState (ss ++ [s])).FMEAN = FMEAN s
    exact hFMEAN
  · show (processExamState (ss ++ [s])).FVAR = FVAR s
    exact hFVAR
  · show (processExamState (ss ++ [s])).SDEV = SDEV s
    exact hSDEV
  · show (processExamState (ss ++ [s])).KTN = sectionN s
    exact hKTN
  · show (if isclose (processExamState (ss ++ [s])).FVAR 0 then (0:ℝ)
      else ((processExamState (ss ++ [s])).GITEMN /
          ((processExamState (ss ++ [s])).GITEMN - 1)) *
        (((processExamState (ss ++ [s])).FVAR - (processExamState (ss ++ [s])).VAR) /
          (processExamState (ss ++ [s])).FVAR)) = _
    rw [hFVAR]
  · have := foldl_sections_acc (fun st => st.SDI) sectionSDI
      (fun st sec => by rw [processExamSectionState_eq]) (ss ++ [s]) initState
    unfold processExamState
    rw [this]
    show (0 : ℝ) + _ = _
    rw [zero_add]
  · have := foldl_sections_acc (fun st => st.SBIS) sectionSBIS
      (fun st sec => by rw [processExamSectionState_eq]) (ss ++ [s]) initState
    unfold processExamState
    rw [this]
    show (0 : ℝ) + _ = _
    rw [zero_add]
  · have := foldl_sections_acc (fun st => st.VAR) sectionVAR
      (fun st sec => by rw [processExamSectionState_eq]) (ss ++ [s]) initState
    unfold processExamState
    rw [this]
    show (0 : ℝ) + _ = _
    rw [zero_add]
  · have := foldl_sections_acc (fun st => st.GITEMN)
      (fun t => (t.answerKey.length : ℝ))
      (fun st sec => by rw [processExamSectionState_eq]) (ss ++ [s]) initState
    unfold processExamState
    rw [this]
    show (0 : ℝ) + _ = _
    rw [zero_add]
  · intro b
    have := foldl_sections_acc (fun st => st.idPass b) (fun t => sectionIdPass t b)
      (fun st sec => by rw [processExamSectionState_eq]) (ss ++ [s]) initState
    unfold processExamState
    rw [this]
    show (0 : ℕ) + _ = _
    rw [Nat.zero_add]
  · intro b
    have := foldl_sections_acc (fun st => st.idBis b) (fun t => sectionIdBis t b)
      (fun st sec => by rw [processExamSectionState_eq]) (ss ++ [s]) initState
    unfold processExamState
    rw [this]
    show (0 : ℕ) + _ = _
    rw [Nat.zero_add]
  · intro k
    have := foldl_sections_acc (fun st => st.CNTKEY k) (fun t => sectionCNTKEY t k)
      (fun st sec => by rw [processExamSectionState_eq]) (ss ++ [s]) initState
    unfold processExamState
    rw [this]
    show (0 : ℝ) + _ = _
    rw [zero_add]
  · intro k
    have := foldl_sections_acc (fun st => st.PROSUM k) (fun t => sectionPROSUM t k)
      (fun st sec => by rw [processExamSectionState_eq]) (ss ++ [s]) initState
    unfold processExamState
    rw [this]
    show (0 : ℝ) + _ = _
    rw [zero_add]
  · intro k
    have := foldl_sections_acc (fun st => st.CNTCHO k) (fun t => sectionCNTCHO t k)
      (fun st sec => by rw [processExamSectionState_eq]) (ss ++ [s]) initState
    unfold processExamState
    rw [this]
    show (0 : ℝ) + _ = _
    rw [zero_add]

/-- Witness for C9 on a concrete two-section exam: the summary score mean is
the LAST section's mean, and SDI is the across-sections sum. -/
theorem examSummary_lastSection_witness :
    ([sectionAllWrong] : List ExamSection) ≠ []
    ∧ (examSummary (processExamState ([sectionAllWrong] ++ [sectionAllRight]))).scoreMean
        = FMEAN sectionAllRight
    ∧ (processExamState ([sectionAllWrong] ++ [sectionAllRight])).SDI =
        (([sectionAllWrong] ++ [sectionAllRight]).map sectionSDI).sum := by
  have h := examSummary_lastSection [sectionAllWrong] sectionAllRight
    (by simp) (by decide)
  exact ⟨by simp, h.1, h.2.2.2.2.2.1⟩

end Itemal
